import Mathlib

/-!
Verification development for the LaTeX-to-HTML card converter
(`src/tex2html_book/tex2html.py`).

The Python source is a pipeline of regex-driven text rewrites.  We embed it
shallowly: text is `List Char`, every regex pass becomes an explicit
left-to-right scanner (`reSub` mirrors `re.sub`: at each index the pattern is
tried, matches never overlap, scanning resumes after a match), and the
stateful replacement callbacks of the source become explicit state threading.
Each matcher function mirrors one concrete regular expression of the source;
the correspondence is noted at each definition.

Conventions:
- Python `\s` is ASCII whitespace (`isPyWS`); Python's `\w` is Unicode-aware,
  which we approximate by treating all code points at and above 128 as word
  characters (the repository's Vietnamese text consists of letters there).
- stderr diagnostics (`print(..., file=sys.stderr)`) are side effects that do
  not influence any return value and are dropped.
-/

namespace Tex2Html

/-- Text is represented as a list of characters. -/
abbrev Str := List Char

/-- Opening brace character. -/
def obr : Char := Char.ofNat 123

/-- Closing brace character. -/
def cbr : Char := Char.ofNat 125

/-- Apostrophe character. -/
def apos : Char := Char.ofNat 39

/-- Backtick character. -/
def btick : Char := Char.ofNat 96

/-- ASCII whitespace, as matched by Python's `\s` and stripped by `str.strip()`. -/
def isPyWS (c : Char) : Bool :=
  c = ' ' || c = '\t' || c = '\n' || c = '\r' || c = '\x0b' || c = '\x0c'

/-- Word characters for `\w` and `\b`.  ASCII alphanumerics and underscore;
code points at or above 128 approximate Python's Unicode word characters. -/
def isWordChar (c : Char) : Bool :=
  ('a' ≤ c && c ≤ 'z') || ('A' ≤ c && c ≤ 'Z') || ('0' ≤ c && c ≤ '9') || c = '_' || 128 ≤ c.toNat

/-- Python `str.strip()`: drop ASCII whitespace from both ends. -/
def pyStrip (t : Str) : Str :=
  ((t.dropWhile isPyWS).reverse.dropWhile isPyWS).reverse

/-- Decimal digit character, for rendering counters the way Python's
`str()` / `%d` / f-string formatting does. -/
def digitChar (d : Nat) : Char :=
  match d with
  | 0 => '0' | 1 => '1' | 2 => '2' | 3 => '3' | 4 => '4'
  | 5 => '5' | 6 => '6' | 7 => '7' | 8 => '8' | _ => '9'

def natDigitsGo : Nat → Nat → Str
  | 0, _ => []
  | fuel + 1, n =>
    if n < 10 then [digitChar n]
    else natDigitsGo fuel (n / 10) ++ [digitChar (n % 10)]

/-- Decimal rendering of a natural number (Python `str(n)` / `'%d' % n`);
the fuel `n + 1` exceeds the number of digits. -/
def natDigits (n : Nat) : Str :=
  natDigitsGo (n + 1) n

/-- Numeric value of a digit character (inverse of `digitChar` on digits). -/
def digitVal (c : Char) : Nat :=
  if c = '0' then 0 else if c = '1' then 1 else if c = '2' then 2
  else if c = '3' then 3 else if c = '4' then 4 else if c = '5' then 5
  else if c = '6' then 6 else if c = '7' then 7 else if c = '8' then 8 else 9

/-- Value of a digit string. -/
def digitsVal (l : Str) : Nat :=
  l.foldl (fun a c => 10 * a + digitVal c) 0

/-- Python `str.replace(pat, rep)` on a suffix: scan left to right, replace
non-overlapping occurrences, resume after each replacement.  (All patterns
used by the source are nonempty; an empty pattern is treated as matching
nowhere, where Python would interleave.) -/
def pyReplaceGo (pat rep : Str) : Nat → Str → Str
  | _, [] => []
  | 0, t => t
  | fuel + 1, c :: cs =>
    if pat ≠ [] ∧ pat.isPrefixOf (c :: cs) then
      rep ++ pyReplaceGo pat rep fuel ((c :: cs).drop pat.length)
    else
      c :: pyReplaceGo pat rep fuel cs

/-- Python `str.replace` (the fuel `t.length + 1` is strictly larger than the
number of scanning steps, so the fuel bound is never reached). -/
def pyReplace (t pat rep : Str) : Str :=
  pyReplaceGo pat rep (t.length + 1) t

/-- Number of indices of `t` at which `pat` is a prefix of the corresponding
suffix (occurrences counted at every start position, including overlaps). -/
def occCount : Str → Str → Nat
  | [], pat => if pat.isPrefixOf ([] : Str) then 1 else 0
  | c :: cs, pat => (if pat.isPrefixOf (c :: cs) then 1 else 0) + occCount cs pat

/-- Number of occurrence start positions lying in the `u` part of `u ++ v`. -/
def countStarts : Str → Str → Str → Nat
  | [], _, _ => 0
  | c :: u, v, pat => (if pat.isPrefixOf (c :: u ++ v) then 1 else 0) + countStarts u v pat

/-- Substring test. -/
def isSubstr : Str → Str → Bool
  | t, pat =>
    pat.isPrefixOf t ||
      match t with
      | [] => false
      | _ :: cs => isSubstr cs pat

/-! ## Generic scanning drivers

`reSub m rep s t` mirrors Python `re.sub(pattern, repl, t)` for a pattern
whose matcher is `m`: the pattern is tried at each index from the left; on a
match the replacement is emitted and scanning resumes immediately after the
matched span; the replacement callback may carry state `s`.  A matcher
returns the captured data together with the remaining text after the match.
All matchers in this file consume at least one character; the guard in the
driver makes the definition total regardless. -/

def reSubGo {α σ : Type} (m : Str → Option (α × Str)) (rep : σ → α → Str × σ) :
    Nat → σ → Str → Str × σ
  | _, s, [] => ([], s)
  | 0, s, t => (t, s)
  | fuel + 1, s, c :: cs =>
    match m (c :: cs) with
    | some (a, rest) =>
      if rest.length < cs.length + 1 then
        let pr := rep s a
        let k := reSubGo m rep fuel pr.2 rest
        (pr.1 ++ k.1, k.2)
      else
        let k := reSubGo m rep fuel s cs
        (c :: k.1, k.2)
    | none =>
      let k := reSubGo m rep fuel s cs
      (c :: k.1, k.2)

def reSub {α σ : Type} (m : Str → Option (α × Str)) (rep : σ → α → Str × σ)
    (s : σ) (t : Str) : Str × σ :=
  reSubGo m rep (t.length + 1) s t

/-- Stateless `re.sub` with a pure replacement function. -/
def reSubP {α : Type} (m : Str → Option (α × Str)) (rep : α → Str) (t : Str) : Str :=
  (reSub m (fun (_ : Unit) a => (rep a, ())) () t).1

/-- `re.search`: first match, as `(text before, captured data, text after)`. -/
def reSearch {α : Type} (m : Str → Option (α × Str)) : Str → Option (Str × α × Str)
  | [] => none
  | c :: cs =>
    match m (c :: cs) with
    | some (a, rest) => some ([], a, rest)
    | none =>
      match reSearch m cs with
      | some (pre, a, rest) => some (c :: pre, a, rest)
      | none => none

/-- `re.sub(..., count=1)`: replace only the first match. -/
def reSubFirst {α : Type} (m : Str → Option (α × Str)) (rep : α → Str) (t : Str) : Str :=
  match reSearch m t with
  | some (pre, a, rest) => pre ++ rep a ++ rest
  | none => t

/-- Helper for `reSplit`: prepend a character to the first piece. -/
def consHead (c : Char) : List Str → List Str
  | [] => [[c]]
  | x :: xs => (c :: x) :: xs

/-- `re.split`: pieces of the text between matches (separators removed,
empty pieces kept). -/
def reSplitGo {α : Type} (m : Str → Option (α × Str)) : Nat → Str → List Str
  | _, [] => [[]]
  | 0, t => [t]
  | fuel + 1, c :: cs =>
    match m (c :: cs) with
    | some (_, rest) =>
      if rest.length < cs.length + 1 then
        [] :: reSplitGo m fuel rest
      else
        consHead c (reSplitGo m fuel cs)
    | none => consHead c (reSplitGo m fuel cs)

def reSplit {α : Type} (m : Str → Option (α × Str)) (t : Str) : List Str :=
  reSplitGo m (t.length + 1) t

/-- Number of matches found by one `re.sub`-style scan. -/
def reCountGo {α : Type} (m : Str → Option (α × Str)) : Nat → Str → Nat
  | _, [] => 0
  | 0, _ => 0
  | fuel + 1, c :: cs =>
    match m (c :: cs) with
    | some (_, rest) =>
      if rest.length < cs.length + 1 then
        1 + reCountGo m fuel rest
      else
        reCountGo m fuel cs
    | none => reCountGo m fuel cs

def reCount {α : Type} (m : Str → Option (α × Str)) (t : Str) : Nat :=
  reCountGo m (t.length + 1) t

/-! ## Matcher combinators -/

/-- Match a literal and return the remaining text. -/
def litM (l : Str) (cs : Str) : Option Str :=
  if l.isPrefixOf cs then some (cs.drop l.length) else none

/-- Lazy `.*?lit` (DOTALL): text before the first occurrence of `lit`,
and the text after that occurrence. -/
def takeUntil (l : Str) : Str → Option (Str × Str)
  | [] => if l.isPrefixOf ([] : Str) then some ([], []) else none
  | c :: cs =>
    if l.isPrefixOf (c :: cs) then some ([], (c :: cs).drop l.length)
    else
      match takeUntil l cs with
      | some (pre, rest) => some (c :: pre, rest)
      | none => none

/-- Greedy character class `p*`: longest prefix satisfying `p`, and the rest. -/
def takeClass (p : Char → Bool) (cs : Str) : Str × Str :=
  (cs.takeWhile p, cs.dropWhile p)

/-- Greedy `\s*`. -/
def wsStar (cs : Str) : Str × Str :=
  takeClass isPyWS cs

/-- Regex `\{[^}]*\}`: simple braced group; returns the group content and rest. -/
def bracedSimple : Str → Option (Str × Str)
  | [] => none
  | c :: cs =>
    if c = obr then
      match cs.dropWhile (fun x => x ≠ cbr) with
      | [] => none
      | _ :: rest => some (cs.takeWhile (fun x => x ≠ cbr), rest)
    else none

theorem bracedSimple_length {l : Str} {p : Str × Str}
    (h : bracedSimple l = some p) : p.2.length < l.length := by
  match l with
  | [] => simp [bracedSimple] at h
  | c :: cs =>
    simp only [bracedSimple] at h
    split at h
    · split at h
      · exact absurd h (by simp)
      · rename_i heq
        have hd : (cs.dropWhile (fun x => x ≠ cbr)).length ≤ cs.length :=
          (List.dropWhile_sublist _).length_le
        rw [heq] at hd
        simp only [Option.some.injEq] at h
        subst h
        simp at hd ⊢
        omega
    · exact absurd h (by simp)

/-- Regex `\[[^\]]*\]`: simple bracketed group. -/
def brackSimple : Str → Option (Str × Str)
  | [] => none
  | c :: cs =>
    if c = '[' then
      match cs.dropWhile (fun x => x ≠ ']') with
      | [] => none
      | _ :: rest => some (cs.takeWhile (fun x => x ≠ ']'), rest)
    else none

/-- Units of the one-level-nested brace group `(?:[^{}]|\{[^{}]*\})*`:
greedily consume plain characters and simple braced groups. -/
def braced1UnitsGo : Nat → Str → Str × Str
  | _, [] => ([], [])
  | 0, t => ([], t)
  | fuel + 1, c :: cs =>
    if c = obr then
      match bracedSimple (c :: cs) with
      | some (inner, rest) =>
        let k := braced1UnitsGo fuel rest
        (obr :: inner ++ cbr :: k.1, k.2)
      | none => ([], c :: cs)
    else if c = cbr then ([], c :: cs)
    else
      let k := braced1UnitsGo fuel cs
      (c :: k.1, k.2)

def braced1Units (t : Str) : Str × Str :=
  braced1UnitsGo (t.length + 1) t

/-- Regex `\{((?:[^{}]|\{[^{}]*\})*)\}`: braced group whose content may
contain one level of nested braces; returns the content and the rest. -/
def braced1 : Str → Option (Str × Str)
  | [] => none
  | c :: cs =>
    if c = obr then
      match braced1Units cs with
      | (u, r0 :: r) => if r0 = cbr then some (u, r) else none
      | (_, []) => none
    else none

/-- First literal of the alternation that matches here (Python alternation
semantics: alternatives tried in order). -/
def altLits : List Str → Str → Option (Str × Str)
  | [], _ => none
  | l :: ls, cs =>
    match litM l cs with
    | some r => some (l, r)
    | none => altLits ls cs

/-- Word boundary `\b` after a word character: next char is not a word char. -/
def noWordAhead (cs : Str) : Bool :=
  match cs with
  | [] => true
  | c :: _ => !(isWordChar c)

/-! ## Comment stripping (`strip_comments`)

Python: per line, `re.sub(r'(?<!\\)%.*$', '', line)` — cut at the first `%`
not immediately preceded by a backslash. -/

/-- Cut one line at the first unescaped `%`. -/
def stripCommentLineGo : Option Char → Str → Str
  | _, [] => []
  | prev, c :: cs =>
    if c = '%' ∧ prev ≠ some '\\' then []
    else c :: stripCommentLineGo (some c) cs

/-- `strip_comments` from the source: split on newlines, strip each line's
comment, rejoin with newlines. -/
def strip_comments (t : Str) : Str :=
  List.intercalate ['\n'] ((t.splitOn '\n').map (stripCommentLineGo none))

/-! ## Math protection (`protect_math` / `restore_math`)

Source lines 374-442.  Placeholder: `'\x00MATH_%d\x00'`.  Four passes, in
source order: `$$...$$`, `\[...\]` (negative lookbehind for a preceding
backslash), the eight display environments (each normalized to a wrapped
`aligned` block), inline `$...$`.  The store index equals the running
counter, which always equals the number of previously stored entries. -/

/-- The `'\x00MATH_%d\x00'` placeholder. -/
def _MATH_PLACEHOLDER (i : Nat) : Str :=
  '\x00' :: (("MATH_").data ++ natDigits i ++ ['\x00'])

/-- The literal `$$`. -/
def ddTok : Str := ("$$").data

/-- Regex `\begin\{name\}`. -/
def beginTok (name : Str) : Str :=
  ("\\begin").data ++ obr :: (name ++ [cbr])

/-- Regex `\end\{name\}`. -/
def endTok (name : Str) : Str :=
  ("\\end").data ++ obr :: (name ++ [cbr])

/-- Matcher for `\$\$.*?\$\$` (DOTALL); captures the whole match. -/
def mDollarDollar (cs : Str) : Option (Str × Str) :=
  match litM ddTok cs with
  | some r1 =>
    match takeUntil ddTok r1 with
    | some (inner, rest) => some (ddTok ++ inner ++ ddTok, rest)
    | none => none
  | none => none

/-- Driver variant threading the character preceding the current position of
the original text, for patterns with a one-character negative lookbehind.
A matcher returns captured data, the last character of the matched span (the
lookbehind context for the continuation), and the rest. -/
def reSubCtxGo {α σ : Type} (m : Option Char → Str → Option (α × Char × Str))
    (rep : σ → α → Str × σ) : Nat → Option Char → σ → Str → Str × σ
  | _, _, s, [] => ([], s)
  | 0, _, s, t => (t, s)
  | fuel + 1, prev, s, c :: cs =>
    match m prev (c :: cs) with
    | some (a, lastc, rest) =>
      if rest.length < cs.length + 1 then
        let pr := rep s a
        let k := reSubCtxGo m rep fuel (some lastc) pr.2 rest
        (pr.1 ++ k.1, k.2)
      else
        let k := reSubCtxGo m rep fuel (some c) s cs
        (c :: k.1, k.2)
    | none =>
      let k := reSubCtxGo m rep fuel (some c) s cs
      (c :: k.1, k.2)

def reSubCtx {α σ : Type} (m : Option Char → Str → Option (α × Char × Str))
    (rep : σ → α → Str × σ) (prev : Option Char) (s : σ) (t : Str) : Str × σ :=
  reSubCtxGo m rep (t.length + 1) prev s t

/-- Matcher for `(?<!\\)\\\[.*?\\\]`; captures the span between `\[` and `\]`. -/
def mDisplayBracket (prev : Option Char) (cs : Str) : Option (Str × Char × Str) :=
  if prev = some '\\' then none
  else
    match litM (("\\[").data) cs with
    | some r1 =>
      match takeUntil (("\\]").data) r1 with
      | some (inner, rest) => some (inner, ']', rest)
      | none => none
    | none => none

/-- Matcher for `\begin\{env\}.*?\end\{env\}` (DOTALL); whole match captured. -/
def mEnvTok (env : Str) (cs : Str) : Option (Str × Str) :=
  match litM (beginTok env) cs with
  | some r1 =>
    match takeUntil (endTok env) r1 with
    | some (inner, rest) => some (beginTok env ++ inner ++ endTok env, rest)
    | none => none
  | none => none

/-- Matcher for `\\begin\{[^}]*\}`. -/
def mBeginAny (cs : Str) : Option (Unit × Str) :=
  match litM (("\\begin").data ++ [obr]) cs with
  | some r =>
    match r.dropWhile (fun x => x ≠ cbr) with
    | [] => none
    | _ :: rest => some ((), rest)
  | none => none

/-- Matcher for `\\end\{[^}]*\}`. -/
def mEndAny (cs : Str) : Option (Unit × Str) :=
  match litM (("\\end").data ++ [obr]) cs with
  | some r =>
    match r.dropWhile (fun x => x ≠ cbr) with
    | [] => none
    | _ :: rest => some ((), rest)
  | none => none

/-- `save_aligned`: on the full matched environment text, search
`\\begin\{[^}]*\}(.*?)\\end\{[^}]*\}` and store the inner group wrapped as a
`$$\begin{aligned}...\end{aligned}$$` block, else the whole match in `$$`. -/
def save_aligned_entry (matched : Str) : Str :=
  let inner := reSearch (fun cs =>
    match mBeginAny cs with
    | some (_, r1) =>
      match reSearch mEndAny r1 with
      | some (pre, _, rest2) => some (pre, rest2)
      | none => none
    | none => none) matched
  match inner with
  | some (_, g1, _) =>
    ddTok ++ beginTok (("aligned").data) ++ g1 ++ endTok (("aligned").data) ++ ddTok
  | none => ddTok ++ matched ++ ddTok

/-- The display math environments, in the source's order. -/
def math_envs : List Str :=
  [("align").data, ("align*").data, ("equation").data, ("equation*").data,
   ("gather").data, ("gather*").data, ("multline").data, ("multline*").data]

/-- Close of inline math: `\$(?!\$)`. -/
def inlineClose : Str → Option Str
  | '$' :: r =>
    match r with
    | '$' :: _ => none
    | _ => some r
  | _ => none

/-- Lazy content of inline math, `((?:[^$\\]|\\.)+?)` followed by the closing
`\$(?!\$)` (no DOTALL: the dot of `\\.` excludes newline); returns the content
and the rest after the closing dollar. -/
def inlineGo : Str → Option (Str × Str)
  | [] => none
  | '\\' :: rest =>
    match rest with
    | [] => none
    | d :: r =>
      if d = '\n' then none
      else
        match inlineClose r with
        | some r2 => some (['\\', d], r2)
        | none =>
          match inlineGo r with
          | some (us, r2) => some ('\\' :: d :: us, r2)
          | none => none
  | c :: r =>
    if c = '$' then none
    else
      match inlineClose r with
      | some r2 => some ([c], r2)
      | none =>
        match inlineGo r with
        | some (us, r2) => some (c :: us, r2)
        | none => none

/-- Matcher for inline math `(?<!\$)\$(?!\$)((?:[^$\\]|\\.)+?)\$(?!\$)`;
captures the whole match `m.group(0)`. -/
def mInlineMath (prev : Option Char) (cs : Str) : Option (Str × Char × Str) :=
  if prev = some '$' then none
  else
    match cs with
    | '$' :: cs1 =>
      match cs1 with
      | '$' :: _ => none
      | _ =>
        match inlineGo cs1 with
        | some (content, rest) => some ('$' :: content ++ ['$'], '$', rest)
        | none => none
    | _ => none

/-- `protect_math` (source lines 377-435): replace math with indexed
placeholders; the returned list is the store of original (normalized) spans. -/
def protect_math (text : Str) : Str × List Str :=
  let s1 := reSub mDollarDollar
    (fun st a => (_MATH_PLACEHOLDER st.length, st ++ [a])) ([] : List Str) text
  let s2 := reSubCtx mDisplayBracket
    (fun st a => (_MATH_PLACEHOLDER st.length, st ++ [ddTok ++ a ++ ddTok])) none s1.2 s1.1
  let s3 := math_envs.foldl (fun (p : Str × List Str) env =>
    let q := reSub (mEnvTok env)
      (fun st a => (_MATH_PLACEHOLDER st.length, st ++ [save_aligned_entry a])) p.2 p.1
    (q.1, q.2)) (s2.1, s2.2)
  let s4 := reSubCtx mInlineMath
    (fun st a => (_MATH_PLACEHOLDER st.length, st ++ [a])) none s3.2 s3.1
  (s4.1, s4.2)

/-- `restore_math` (source lines 438-442): substring-replace each indexed
placeholder by its stored original, in index order. -/
def restore_math (text : Str) (store : List Str) : Str :=
  store.enum.foldl (fun t p => pyReplace t (_MATH_PLACEHOLDER p.1) p.2) text

/-! ## Code environments (`extract_code_environments`, source lines 793-921) -/

/-- The `'@@CODE_BLOCK_%d@@'` placeholder key. -/
def codeKey (i : Nat) : Str :=
  ("@@CODE_BLOCK_").data ++ natDigits i ++ ("@@").data

/-- `_escape`: HTML-escape ampersand, less-than, greater-than — in that
order, each exactly once. -/
def _escape (s : Str) : Str :=
  pyReplace (pyReplace (pyReplace s (("&").data) (("&amp;").data))
    (("<").data) (("&lt;").data)) ((">").data) (("&gt;").data)

/-- The block `pre` style string of the source. -/
def CODE_STYLE : Str :=
  ("background:#f6f8fa; border:1px solid #e1e4e8; border-radius:6px; padding:1em; overflow-x:auto; font-size:0.9em; line-height:1.5").data

/-- The listing caption style string. -/
def CAP_STYLE : Str := ("text-align:center;font-size:0.9em;color:#586069").data

/-- The inline code style string. -/
def INLINE_STYLE : Str :=
  ("background:#f0f0f0; padding:0.15em 0.4em; border-radius:3px; font-family:monospace; font-size:0.9em").data

/-- `<pre style="{style}"{extra}><code>`. -/
def preOpen (style extra : Str) : Str :=
  ("<pre style=\"").data ++ style ++ ("\"").data ++ extra ++ ("><code>").data

/-- `</code></pre>`. -/
def preClose : Str := ("</code></pre>").data

/-- `_placeholder`: allocate the next code key (the counter always equals the
number of placeholders created so far) and record the html. -/
def _placeholder (st : List (Str × Str)) (html : Str) : Str × List (Str × Str) :=
  (codeKey st.length, st ++ [(codeKey st.length, html)])

/-- Matcher for `\\begin\{verbatim\}(.*?)\\end\{verbatim\}` (DOTALL). -/
def mVerbatim (cs : Str) : Option (Str × Str) :=
  match litM (beginTok (("verbatim").data)) cs with
  | some r1 => takeUntil (endTok (("verbatim").data)) r1
  | none => none

/-- Matcher for
`\\begin\{lstlisting\}\s*(?:\[([^\]]*)\])?\s*(.*?)\\end\{lstlisting\}`:
the optional-group path is tried first; if no closing bracket or no end token
follows, the engine backtracks to the path without the optional group. -/
def mLstlisting (cs : Str) : Option ((Option Str × Str) × Str) :=
  match litM (beginTok (("lstlisting").data)) cs with
  | none => none
  | some r1 =>
    let w1 := (wsStar r1).2
    let noOpt : Option ((Option Str × Str) × Str) :=
      match takeUntil (endTok (("lstlisting").data)) w1 with
      | some (content, rest) => some ((none, content), rest)
      | none => none
    match brackSimple w1 with
    | some (opts, afterB) =>
      match takeUntil (endTok (("lstlisting").data)) ((wsStar afterB).2) with
      | some (content, rest) => some ((some opts, content), rest)
      | none => noOpt
    | none => noOpt

/-- Search target `language\s*=\s*(\w+)` inside an options string. -/
def mLanguageOpt (cs : Str) : Option (Str × Str) :=
  match litM (("language").data) cs with
  | some r1 =>
    match ((wsStar r1).2 : Str) with
    | '=' :: r3 =>
      let r4 := (wsStar r3).2
      let lang := r4.takeWhile isWordChar
      if lang = [] then none else some (lang, r4.dropWhile isWordChar)
    | _ => none
  | none => none

/-- Search target `caption\s*=\s*\{?((?:[^},]|\{[^}]*\})*)`.  Since the first
alternative `[^},]` also matches an opening brace and nothing follows the
group, the group is simply the longest run of characters that are neither a
closing brace nor a comma. -/
def mCaptionOpt (cs : Str) : Option (Str × Str) :=
  match litM (("caption").data) cs with
  | some r1 =>
    match ((wsStar r1).2 : Str) with
    | '=' :: r3 =>
      let r4 := (wsStar r3).2
      let r5 := match r4 with
        | c :: rr => if c = obr then rr else r4
        | [] => r4
      some (r5.takeWhile (fun c => ¬ (c = cbr ∨ c = ',')),
            r5.dropWhile (fun c => ¬ (c = cbr ∨ c = ',')))
    | _ => none
  | none => none

/-- Python `str.strip('{}')`. -/
def stripBraces (t : Str) : Str :=
  ((t.dropWhile (fun c => c = obr || c = cbr)).reverse.dropWhile
    (fun c => c = obr || c = cbr)).reverse

/-- Caption text from an options string: group, `.strip().strip('{}')`. -/
def captionOfOpts (opts : Str) : Str :=
  match reSearch mCaptionOpt opts with
  | some (_, grp, _) => stripBraces (pyStrip grp)
  | none => []

/-- Language from an options string. -/
def languageOfOpts (opts : Str) : Str :=
  match reSearch mLanguageOpt opts with
  | some (_, lang, _) => lang
  | none => []

/-- Numbered-caption formatting `{prefix}.{n}` or `{n}`. -/
def numFmt (pfx : Str) (n : Nat) : Str :=
  if pfx ≠ [] then pfx ++ '.' :: natDigits n else natDigits n

/-- The `Listing {num}: {caption}` paragraph. -/
def listingCapHtml (pfx : Str) (n : Nat) (caption : Str) : Str :=
  ("<p style=\"").data ++ CAP_STYLE ++ ("\"><em>Listing ").data ++
    numFmt pfx n ++ (": ").data ++ caption ++ ("</em></p>").data

/-- The right-aligned language badge div. -/
def langBadge (lang : Str) : Str :=
  ("<div style=\"text-align:right;font-size:0.8em;color:#6a737d;margin-bottom:0.3em\">").data
    ++ lang ++ ("</div>").data

/-- State of `extract_code_environments`: placeholders made so far (the code
counter equals their number) and the listing counter. -/
abbrev CodeSt := List (Str × Str) × Nat

/-- Replacement `_verbatim_repl`. -/
def verbatimRep (st : CodeSt) (content : Str) : Str × CodeSt :=
  let html := preOpen CODE_STYLE [] ++ _escape (pyStrip content) ++ preClose
  let pk := _placeholder st.1 html
  (pk.1, (pk.2, st.2))

/-- Replacement `_lst_repl`. -/
def lstRep (pfx : Str) (st : CodeSt) (a : Option Str × Str) : Str × CodeSt :=
  let opts := a.1.getD []
  let content := _escape (pyStrip a.2)
  let lang := languageOfOpts opts
  let caption := captionOfOpts opts
  let lc := if caption ≠ [] then st.2 + 1 else st.2
  let capHtml := if caption ≠ [] then listingCapHtml pfx lc caption else []
  let lbl := if lang ≠ [] then (" data-lang=\"").data ++ lang ++ ("\"").data else []
  let badge := if lang ≠ [] then langBadge lang else []
  let html := badge ++ preOpen CODE_STYLE lbl ++ content ++ preClose ++ capHtml
  let pk := _placeholder st.1 html
  (pk.1, (pk.2, lc))

/-- Tail of the minted pattern after the optional bracket group:
`\{(\w+)\}\s*(.*?)\\end\{minted\}`. -/
def parseMintedTail (cs : Str) : Option ((Str × Str) × Str) :=
  match cs with
  | c :: r =>
    if c = obr then
      let lang := r.takeWhile isWordChar
      if lang = [] then none
      else
        match r.dropWhile isWordChar with
        | c2 :: r2 =>
          if c2 = cbr then
            match takeUntil (endTok (("minted").data)) ((wsStar r2).2) with
            | some (content, rest) => some ((lang, content), rest)
            | none => none
          else none
        | [] => none
    else none
  | [] => none

/-- Matcher for
`\\begin\{minted\}\s*(?:\[([^\]]*)\])?\s*\{(\w+)\}\s*(.*?)\\end\{minted\}`. -/
def mMinted (cs : Str) : Option ((Option Str × Str × Str) × Str) :=
  match litM (beginTok (("minted").data)) cs with
  | none => none
  | some r1 =>
    let w1 := (wsStar r1).2
    let noOpt : Option ((Option Str × Str × Str) × Str) :=
      match parseMintedTail w1 with
      | some ((lang, content), rest) => some ((none, lang, content), rest)
      | none => none
    match brackSimple w1 with
    | some (opts, afterB) =>
      match parseMintedTail ((wsStar afterB).2) with
      | some ((lang, content), rest) => some ((some opts, lang, content), rest)
      | none => noOpt
    | none => noOpt

/-- Replacement `_minted_repl`. -/
def mintedRep (pfx : Str) (st : CodeSt) (a : Option Str × Str × Str) : Str × CodeSt :=
  let opts := a.1.getD []
  let lang := a.2.1
  let content := _escape (pyStrip a.2.2)
  let caption := captionOfOpts opts
  let lc := if caption ≠ [] then st.2 + 1 else st.2
  let capHtml := if caption ≠ [] then listingCapHtml pfx lc caption else []
  let badge := if lang ≠ [] then langBadge lang else []
  let html := badge ++ preOpen CODE_STYLE [] ++ content ++ preClose ++ capHtml
  let pk := _placeholder st.1 html
  (pk.1, (pk.2, lc))

/-- Matcher for a one-character-delimited inline span such as `\\verb\|([^|]*)\|`. -/
def simpleDelim (opener : Str) (d : Char) (cs : Str) : Option (Str × Str) :=
  match litM opener cs with
  | some r1 =>
    match r1.dropWhile (fun x => x ≠ d) with
    | [] => none
    | _ :: rest => some (r1.takeWhile (fun x => x ≠ d), rest)
  | none => none

/-- Matcher for `\\lstinline\{([^}]*)\}`. -/
def mLstinlineBrace (cs : Str) : Option (Str × Str) :=
  match litM (("\\lstinline").data) cs with
  | some r1 => bracedSimple r1
  | none => none

/-- Matcher for `\\mintinline\{\w+\}\{([^}]*)\}`. -/
def mMintinline (cs : Str) : Option (Str × Str) :=
  match litM (("\\mintinline").data) cs with
  | some r1 =>
    match r1 with
    | c :: r =>
      if c = obr then
        let lang := r.takeWhile isWordChar
        if lang = [] then none
        else
          match r.dropWhile isWordChar with
          | c2 :: r2 => if c2 = cbr then bracedSimple r2 else none
          | [] => none
      else none
    | [] => none
  | none => none

/-- Inline-code replacement: `<code style="{INLINE_STYLE}">{escape(g)}</code>`
(the group is escaped but not stripped). -/
def inlineCodeRep (g : Str) : Str :=
  ("<code style=\"").data ++ INLINE_STYLE ++ ("\">").data ++ _escape g ++ ("</code>").data

/-- `extract_code_environments` (source lines 793-914): extract
verbatim/lstlisting/minted blocks to placeholders, rewrite inline code spans
directly; returns the processed text and the ordered placeholder mapping. -/
def extract_code_environments (text : Str) (card_stt : Nat) : Str × List (Str × Str) :=
  let pfx := if card_stt ≠ 0 then natDigits card_stt else []
  let p1 := reSub mVerbatim (fun st a => verbatimRep st a) (([], 0) : CodeSt) text
  let p2 := reSub mLstlisting (fun st a => lstRep pfx st a) p1.2 p1.1
  let p3 := reSub mMinted (fun st a => mintedRep pfx st a) p2.2 p2.1
  let t4 := reSubP (simpleDelim (("\\verb|").data) '|') inlineCodeRep p3.1
  let t5 := reSubP (simpleDelim (("\\verb+").data) '+') inlineCodeRep t4
  let t6 := reSubP (simpleDelim (("\\lstinline|").data) '|') inlineCodeRep t5
  let t7 := reSubP mLstinlineBrace inlineCodeRep t6
  let t8 := reSubP mMintinline inlineCodeRep t7
  (t8, p3.2.1)

/-- `restore_code_placeholders` (source lines 917-921): substring-replace each
placeholder key by its html, in insertion order. -/
def restore_code_placeholders (text : Str) (placeholders : List (Str × Str)) : Str :=
  placeholders.foldl (fun t kv => pyReplace t kv.1 kv.2) text

/-! ## Alternation with continuation

Python alternation tries alternatives in order and backtracks into the
alternation when the continuation of the pattern fails (e.g. `(For|ForAll)\b`
on `\ForAll` matches `ForAll`). -/

/-- Try each literal alternative in order; succeed with the first whose
continuation parser also succeeds. -/
def altFirst {β : Type} (words : List Str) (check : Str → Option β) (cs : Str) :
    Option (Str × β) :=
  match words with
  | [] => none
  | w :: ws =>
    match litM w cs with
    | some r =>
      match check r with
      | some b => some (w, b)
      | none => altFirst ws check cs
    | none => altFirst ws check cs

/-- Continuation for a trailing `\b`: the rest must not begin with a word
character; the rest is returned unchanged. -/
def bCheck (r : Str) : Option Str :=
  if noWordAhead r then some r else none

/-- Continuation for a trailing `\s*`: consume greedy whitespace. -/
def wsCheck (r : Str) : Option Str :=
  some ((wsStar r).2)

/-! ## Simple removal/rewrite matchers used by the orchestrator -/

/-- Matcher for `\\(newpage|clearpage|cleardoublepage)\b`. -/
def mPageBreak (cs : Str) : Option (Unit × Str) :=
  match cs with
  | '\\' :: r =>
    (altFirst [("newpage").data, ("clearpage").data, ("cleardoublepage").data]
      bCheck r).map (fun p => ((), p.2))
  | _ => none

/-- Matcher for `\\label\{[^}]*\}`. -/
def mLabel (cs : Str) : Option (Unit × Str) :=
  match litM (("\\label").data) cs with
  | some r1 => (bracedSimple r1).map (fun p => ((), p.2))
  | none => none

/-- Matcher for `\\label\{[^}]*\}\s*`. -/
def mLabelWS (cs : Str) : Option (Unit × Str) :=
  (mLabel cs).map (fun p => ((), (wsStar p.2).2))

/-- Matcher for `\\texorpdfstring\{([^}]*)\}\{[^}]*\}`; captures the first group. -/
def mTexorpdfstring (cs : Str) : Option (Str × Str) :=
  match litM (("\\texorpdfstring").data) cs with
  | some r1 =>
    match bracedSimple r1 with
    | some (g1, r2) =>
      match bracedSimple r2 with
      | some (_, r3) => some (g1, r3)
      | none => none
    | none => none
  | none => none

/-- Matcher for `\\definecolor\{[^}]*\}\{[^}]*\}\{[^}]*\}\s*`. -/
def mDefinecolor (cs : Str) : Option (Unit × Str) :=
  match litM (("\\definecolor").data) cs with
  | some r1 =>
    match bracedSimple r1 with
    | some (_, r2) =>
      match bracedSimple r2 with
      | some (_, r3) =>
        match bracedSimple r3 with
        | some (_, r4) => some ((), (wsStar r4).2)
        | none => none
      | none => none
    | none => none
  | none => none

/-- Matcher for `\\CMD\{[^}]*\}\{[^}]*\}` (two simple braced arguments). -/
def mTwoBraced (cmd : Str) (cs : Str) : Option (Unit × Str) :=
  match litM cmd cs with
  | some r1 =>
    match bracedSimple r1 with
    | some (_, r2) =>
      match bracedSimple r2 with
      | some (_, r3) => some ((), r3)
      | none => none
    | none => none
  | none => none

/-- Matcher for `\\renewcommand\{[^}]*\}\{[^}]*\}\s*`. -/
def mRenewcommandWS (cs : Str) : Option (Unit × Str) :=
  (mTwoBraced (("\\renewcommand").data) cs).map (fun p => ((), (wsStar p.2).2))

/-- Matcher for `\\setlength\{[^}]*\}\{[^}]*\}\s*`. -/
def mSetlengthWS (cs : Str) : Option (Unit × Str) :=
  (mTwoBraced (("\\setlength").data) cs).map (fun p => ((), (wsStar p.2).2))

/-! ## TikZ pre-rendering (`convert_tikz_environments`, source lines 1310-1433)

This pass shells out to `xelatex`/`pdflatex` and `pdftoppm`; the external
toolchain is abstracted as a `TikzRenderer`: `available` models
`shutil.which` finding a LaTeX binary, and `render n code` models the html
produced for the `n`-th diagram (embedded image on success, the yellow
fallback box otherwise).  When no LaTeX binary is available the source
replaces `tikzpicture` environments by a fixed placeholder box and returns
early, leaving `tikzcd` untouched. -/

structure TikzRenderer where
  available : Bool
  render : Nat → Str → Str

/-- The fixed `[TikZ diagram — xelatex/pdflatex not available]` box. -/
def tikzUnavailableBox : Str :=
  ("<div style=\"background:#fff3cd;border:1px solid #ffc107;border-radius:6px;padding:1em;margin:1em 0;text-align:center\"><em>[TikZ diagram — xelatex/pdflatex not available]</em></div>").data

/-- Matcher for `\\begin\{tikzpicture\}.*?\\end\{tikzpicture\}` (whole match). -/
def mTikzpicture (cs : Str) : Option (Str × Str) :=
  mEnvTok (("tikzpicture").data) cs

/-- Matcher for `\\begin\{tikzcd\}.*?\\end\{tikzcd\}` (whole match). -/
def mTikzcd (cs : Str) : Option (Str × Str) :=
  mEnvTok (("tikzcd").data) cs

/-- `convert_tikz_environments`: replace each `tikzpicture` then each
`tikzcd` block by the renderer's html, with one shared counter. -/
def convert_tikz_environments (rdr : TikzRenderer) (text : Str) : Str :=
  if rdr.available then
    let p1 := reSub mTikzpicture
      (fun (n : Nat) code => (rdr.render (n + 1) code, n + 1)) 0 text
    let p2 := reSub mTikzcd
      (fun (n : Nat) code => (rdr.render (n + 1) code, n + 1)) p1.2 p1.1
    p2.1
  else
    reSubP mTikzpicture (fun _ => tikzUnavailableBox) text

/-! ## Algorithm / pseudocode environments (source lines 924-1304) -/

/-- Keyword span opener. -/
def KW : Str := ("<span style=\"color:#0366d6;font-weight:bold\">").data

/-- Keyword span closer. -/
def KWE : Str := ("</span>").data

/-- Comment span opener. -/
def CMT : Str := ("<span style=\"color:#6a737d;font-style:italic\">").data

/-- Comment span closer. -/
def CMTE : Str := ("</span>").data

/-- `_extract_brace_arg` (source lines 927-944), on the suffix starting at
`start`: content of the first balanced `{...}` and the text after it; if no
brace, the input is returned unchanged with empty content; if unclosed, the
rest of the text is the content. -/
def braceScanGo : Nat → Str → Str × Str
  | _, [] => ([], [])
  | depth, c :: cs =>
    if c = obr then
      let k := braceScanGo (depth + 1) cs
      (c :: k.1, k.2)
    else if c = cbr then
      if depth = 1 then ([], cs)
      else
        let k := braceScanGo (depth - 1) cs
        (c :: k.1, k.2)
    else
      let k := braceScanGo depth cs
      (c :: k.1, k.2)

/-- `_extract_brace_arg`, suffix form. -/
def _extract_brace_arg (t : Str) : Str × Str :=
  match t.dropWhile (fun c => c ≠ obr) with
  | [] => ([], t)
  | _ :: afterBrace => braceScanGo 1 afterBrace

/-- The algorithmic command names, in the source's alternation order. -/
def algoCmdNames : List Str :=
  [("State").data, ("If").data, ("ElsIf").data, ("Else").data, ("EndIf").data,
   ("While").data, ("EndWhile").data, ("For").data, ("ForAll").data, ("EndFor").data,
   ("Repeat").data, ("Until").data, ("Loop").data, ("EndLoop").data, ("Return").data,
   ("Require").data, ("Ensure").data, ("Function").data, ("EndFunction").data,
   ("Procedure").data, ("EndProcedure").data, ("Comment").data]

/-- Matcher for `(\\(?:State|If|...)\b)`; captures the whole command. -/
def mAlgoCmd (cs : Str) : Option (Str × Str) :=
  match cs with
  | '\\' :: r =>
    (altFirst algoCmdNames bCheck r).map (fun p => ('\\' :: p.1, p.2))
  | _ => none

/-- Matcher for `\\Comment\{(nested-1)\}`; captures the group. -/
def mCommentArg (cs : Str) : Option (Str × Str) :=
  match litM (("\\Comment").data) cs with
  | some r1 => braced1 r1
  | none => none

/-- `_handle_comment_in`: rewrite inline `\Comment{...}`. -/
def _handle_comment_in (t : Str) : Str :=
  reSubP mCommentArg
    (fun g => ' ' :: (CMT ++ ("&#x25B7; ").data ++ g ++ CMTE)) t

/-- Matcher for `\\Call\{(\w+)\}\{(nested-1)\}`. -/
def mCall (cs : Str) : Option ((Str × Str) × Str) :=
  match litM (("\\Call").data) cs with
  | some r1 =>
    match r1 with
    | c :: r =>
      if c = obr then
        let nm := r.takeWhile isWordChar
        if nm = [] then none
        else
          match r.dropWhile isWordChar with
          | c2 :: r2 =>
            if c2 = cbr then
              match braced1 r2 with
              | some (args, r3) => some ((nm, args), r3)
              | none => none
            else none
          | [] => none
      else none
    | [] => none
  | none => none

/-- Indent padding `{ind * 1.5}em` as Python formats the float
(`0.0`, `1.5`, `3.0`, ...). -/
def padStr (ind : Nat) : Str :=
  natDigits (ind * 15 / 10) ++ '.' :: natDigits (ind * 15 % 10)

/-- `_line`: an indented pseudocode line div. -/
def algoLineDiv (ind : Nat) (html : Str) : Str :=
  ("<div style=\"padding-left:").data ++ padStr ind ++ ("em\">").data ++ html ++ ("</div>").data

/-- Small-caps name span used for function/procedure/call names. -/
def smallCapsSpan (nm : Str) : Str :=
  ("<span style=\"font-variant:small-caps\">").data ++ nm ++ ("</span>").data

/-- One line of `_convert_algorithmic_content`'s loop: the indent level and
the emitted divs so far, updated by one (already stripped) line. -/
def algorithmicLine (st : Nat × List Str) (line : Str) : Nat × List Str :=
  let indent := st.1
  let out := st.2
  let emit := fun (ind : Nat) (html : Str) => out ++ [algoLineDiv ind html]
  match altFirst [("If").data, ("While").data, ("For").data, ("Loop").data,
      ("Function").data, ("Procedure").data] bCheck
      (if (("\\End").data).isPrefixOf line then line.drop 4 else []) with
  | some (w, _) =>
    let kw := if w = ("If").data then ("end if").data
      else if w = ("While").data then ("end while").data
      else if w = ("For").data then ("end for").data
      else if w = ("Loop").data then ("end loop").data
      else if w = ("Function").data then ("end function").data
      else ("end procedure").data
    (indent - 1, (out ++ [algoLineDiv (indent - 1) (KW ++ kw ++ KWE)]))
  | none =>
  if ((match litM (("\\Else").data) line with
      | some r => noWordAhead r
      | none => false) &&
      ! (("\\ElsIf").data).isPrefixOf line) then
    (indent - 1 + 1, emit (indent - 1) (KW ++ ("else").data ++ KWE))
  else if (("\\ElsIf").data).isPrefixOf line then
    let cond := (_extract_brace_arg (line.drop 6)).1
    (indent - 1 + 1, emit (indent - 1)
      (KW ++ ("else if").data ++ KWE ++ ' ' :: cond ++ ' ' :: (KW ++ ("then").data ++ KWE)))
  else if (("\\If").data).isPrefixOf line then
    let cond := (_extract_brace_arg (line.drop 3)).1
    (indent + 1, emit indent
      (KW ++ ("if").data ++ KWE ++ ' ' :: cond ++ ' ' :: (KW ++ ("then").data ++ KWE)))
  else if (("\\While").data).isPrefixOf line then
    let cond := (_extract_brace_arg (line.drop 6)).1
    (indent + 1, emit indent
      (KW ++ ("while").data ++ KWE ++ ' ' :: cond ++ ' ' :: (KW ++ ("do").data ++ KWE)))
  else if (("\\ForAll").data).isPrefixOf line then
    let cond := (_extract_brace_arg (line.drop 7)).1
    (indent + 1, emit indent
      (KW ++ ("for all").data ++ KWE ++ ' ' :: cond ++ ' ' :: (KW ++ ("do").data ++ KWE)))
  else if (("\\For").data).isPrefixOf line then
    let cond := (_extract_brace_arg (line.drop 4)).1
    (indent + 1, emit indent
      (KW ++ ("for").data ++ KWE ++ ' ' :: cond ++ ' ' :: (KW ++ ("do").data ++ KWE)))
  else if (("\\Repeat").data).isPrefixOf line then
    (indent + 1, emit indent (KW ++ ("repeat").data ++ KWE))
  else if (("\\Until").data).isPrefixOf line then
    let cond := (_extract_brace_arg (line.drop 6)).1
    (indent - 1, emit (indent - 1) (KW ++ ("until").data ++ KWE ++ ' ' :: cond))
  else if (("\\Loop").data).isPrefixOf line then
    (indent + 1, emit indent (KW ++ ("loop").data ++ KWE))
  else if (("\\Function").data).isPrefixOf line ∨ (("\\Procedure").data).isPrefixOf line then
    let isFunc := (("\\Function").data).isPrefixOf line
    let cmdLen := if isFunc then 9 else 10
    let kw := if isFunc then ("function").data else ("procedure").data
    let e1 := _extract_brace_arg (line.drop cmdLen)
    let e2 := _extract_brace_arg e1.2
    (indent + 1, emit indent
      (KW ++ kw ++ KWE ++ ' ' :: smallCapsSpan e1.1 ++ '(' :: e2.1 ++ [')']))
  else if (("\\Require").data).isPrefixOf line then
    (indent, emit indent
      (KW ++ ("Require:").data ++ KWE ++ ' ' :: _handle_comment_in (pyStrip (line.drop 8))))
  else if (("\\Ensure").data).isPrefixOf line then
    (indent, emit indent
      (KW ++ ("Ensure:").data ++ KWE ++ ' ' :: _handle_comment_in (pyStrip (line.drop 7))))
  else if (("\\Return").data).isPrefixOf line then
    (indent, emit indent
      (KW ++ ("return").data ++ KWE ++ ' ' :: _handle_comment_in (pyStrip (line.drop 7))))
  else if (("\\State").data).isPrefixOf line then
    let rest0 := _handle_comment_in (pyStrip (line.drop 6))
    let rest := reSubP mCall (fun p => smallCapsSpan p.1 ++ '(' :: p.2 ++ [')']) rest0
    (indent, emit indent rest)
  else if (("\\Comment").data).isPrefixOf line then
    let ctext := (_extract_brace_arg (line.drop 8)).1
    (indent, emit indent (CMT ++ ("&#x25B7; ").data ++ ctext ++ CMTE))
  else if line ≠ [] ∧ ¬ (("\\").data).isPrefixOf line then
    (indent, emit indent (_handle_comment_in line))
  else
    (indent, out)

/-- `_convert_algorithmic_content` (source lines 947-1104). -/
def _convert_algorithmic_content (content : Str) : Str :=
  let c2 := reSubP mAlgoCmd (fun w => '\n' :: w) content
  let lns := (c2.splitOn '\n').map pyStrip
  let fin := lns.foldl (fun st ln => if ln = [] then st else algorithmicLine st ln) (0, [])
  List.intercalate ['\n'] fin.2

/-- Matcher for `\\tcp\*?\{(nested-1)\}` (or `tcc`). -/
def mTcpTcc (cmd : Str) (cs : Str) : Option (Str × Str) :=
  match litM cmd cs with
  | some r1 =>
    let r2 := match r1 with
      | c :: rr => if c = '*' then rr else r1
      | [] => r1
    braced1 r2
  | none => none

/-- Matcher for `\\Kw(In|Out|Data|Result)\{(nested-1)\}`. -/
def mKw (cs : Str) : Option ((Str × Str) × Str) :=
  match litM (("\\Kw").data) cs with
  | some r1 =>
    (altFirst [("In").data, ("Out").data, ("Data").data, ("Result").data]
      braced1 r1).map (fun p => ((p.1, p.2.1), p.2.2))
  | none => none

/-- Anchored match `\\(?:u)?If\{(nested-1)\}\s*\{` style patterns: command
with optional `u`, one nested-1 group, whitespace, then an opening brace. -/
def m2eBlockCmd (names : List Str) (cs : Str) : Option (Str × Str × Str) :=
  match cs with
  | '\\' :: r =>
    (altFirst names (fun r2 =>
      match braced1 r2 with
      | some (g, r3) =>
        match ((wsStar r3).2 : Str) with
        | c :: r4 => if c = obr then some (g, r4) else none
        | [] => none
      | none => none) r).map (fun p => (p.1, p.2.1, p.2.2))
  | _ => none

/-- One line of `_convert_algorithm2e_content`'s loop. -/
def algo2eLine (st : Nat × List Str) (line : Str) : Nat × List Str :=
  let indent := st.1
  let out := st.2
  let emit := fun (ind : Nat) (html : Str) => out ++ [algoLineDiv ind html]
  if line = [cbr] then
    (indent - 1, out)
  else
    match mKw line with
    | some ((w, g), _) =>
      let nm := if w = ("In").data then ("Input").data
        else if w = ("Out").data then ("Output").data
        else if w = ("Data").data then ("Data").data
        else ("Result").data
      (indent, emit indent (KW ++ nm ++ [':'] ++ KWE ++ ' ' :: g))
    | none =>
    match m2eBlockCmd [("If").data, ("uIf").data] line with
    | some (_, cond, _) =>
      (indent + 1, emit indent
        (KW ++ ("if").data ++ KWE ++ ' ' :: cond ++ ' ' :: (KW ++ ("then").data ++ KWE)))
    | none =>
    match m2eBlockCmd [("ElseIf").data, ("uElseIf").data] line with
    | some (_, cond, _) =>
      (indent - 1 + 1, emit (indent - 1)
        (KW ++ ("else if").data ++ KWE ++ ' ' :: cond ++ ' ' :: (KW ++ ("then").data ++ KWE)))
    | none =>
    if ((match litM (("\\Else").data) line with
        | some r =>
          match ((wsStar r).2 : Str) with
          | c :: _ => c == obr
          | [] => false
        | none => false) : Bool) then
      (indent - 1 + 1, emit (indent - 1) (KW ++ ("else").data ++ KWE))
    else
    match m2eBlockCmd [("While").data] line with
    | some (_, cond, _) =>
      (indent + 1, emit indent
        (KW ++ ("while").data ++ KWE ++ ' ' :: cond ++ ' ' :: (KW ++ ("do").data ++ KWE)))
    | none =>
    match m2eBlockCmd [("For").data, ("ForEach").data] line with
    | some (_, cond, _) =>
      let kw := if isSubstr line (("ForEach").data) then ("for each").data else ("for").data
      (indent + 1, emit indent
        (KW ++ kw ++ KWE ++ ' ' :: cond ++ ' ' :: (KW ++ ("do").data ++ KWE)))
    | none =>
    match (match litM (("\\Return").data) line with
        | some r => if noWordAhead r then some ((wsStar r).2) else none
        | none => none) with
    | some g =>
      (indent, emit indent (KW ++ ("return").data ++ KWE ++ ' ' :: g))
    | none =>
      (indent, emit indent line)

/-- `_convert_algorithm2e_content` (source lines 1107-1199). -/
def _convert_algorithm2e_content (content : Str) : Str :=
  let c1 := pyReplace content (("\\;").data) []
  let c2 := reSubP (mTcpTcc (("\\tcp").data))
    (fun g => ' ' :: (CMT ++ ("// ").data ++ g ++ CMTE)) c1
  let c3 := reSubP (mTcpTcc (("\\tcc").data))
    (fun g => ' ' :: (CMT ++ ("/* ").data ++ g ++ (" */").data ++ CMTE)) c2
  let lns := (c3.splitOn '\n').map pyStrip
  let fin := lns.foldl (fun st ln => if ln = [] then st else algo2eLine st ln) (0, [])
  List.intercalate ['\n'] fin.2

/-- The algorithm box style. -/
def ALGO_STYLE : Str :=
  ("background:#f8f9fa; border:1px solid #dee2e6; border-radius:6px; padding:1em; margin:1em 0").data

/-- The pseudocode style. -/
def PSEUDO_STYLE : Str := ("font-size:0.95em; line-height:1.8").data

/-- Matcher for `\\caption\{(nested-1)\}`; captures the group. -/
def mCaptionCmd (cs : Str) : Option (Str × Str) :=
  match litM (("\\caption").data) cs with
  | some r1 => braced1 r1
  | none => none

/-- Matcher for an environment with `\s*(?:\[[^\]]*\])?\s*` after the begin
token and lazy content up to the end token; captures only the content. -/
def mEnvOptBody (name : Str) (cs : Str) : Option (Str × Str) :=
  match litM (beginTok name) cs with
  | none => none
  | some r1 =>
    let w1 := (wsStar r1).2
    let noOpt : Option (Str × Str) := takeUntil (endTok name) w1
    match brackSimple w1 with
    | some (_, afterB) =>
      match takeUntil (endTok name) ((wsStar afterB).2) with
      | some p => some p
      | none => noOpt
    | none => noOpt

/-- Matcher for
`\\begin\{algorithmic\}\s*(?:\[\d+\])?\s*(.*?)\\end\{algorithmic\}`. -/
def mAlgorithmic (cs : Str) : Option (Str × Str) :=
  match litM (beginTok (("algorithmic").data)) cs with
  | none => none
  | some r1 =>
    let w1 := (wsStar r1).2
    let noOpt : Option (Str × Str) := takeUntil (endTok (("algorithmic").data)) w1
    match w1 with
    | '[' :: r2 =>
      let ds := r2.takeWhile Char.isDigit
      if ds = [] then noOpt
      else
        match r2.dropWhile Char.isDigit with
        | c :: r3 =>
          if c = ']' then
            match takeUntil (endTok (("algorithmic").data)) ((wsStar r3).2) with
            | some p => some p
            | none => noOpt
          else noOpt
        | [] => noOpt
    | _ => noOpt

/-- The `Thuật toán {num}` caption paragraph (with or without caption text). -/
def algoCapHtml (num : Str) (caption : Str) : Str :=
  if caption ≠ [] then
    ("<p style=\"font-weight:bold;margin-bottom:0.5em\">Thuật toán ").data ++ num ++
      (": ").data ++ caption ++ ("</p>").data
  else
    ("<p style=\"font-weight:bold;margin-bottom:0.5em\">Thuật toán ").data ++ num ++ ("</p>").data

/-- The outer algorithm box. -/
def algoBox (capHtml body : Str) : Str :=
  ("<div class=\"algorithm-box\" style=\"").data ++ ALGO_STYLE ++ ("\">\n").data ++
    capHtml ++ ("\n<div class=\"pseudocode\" style=\"").data ++ PSEUDO_STYLE ++
    ("\">\n").data ++ body ++ ("\n</div>\n</div>").data

/-- `_algo_repl`: replacement for an `algorithm` environment. -/
def algoRepl (card_stt : Nat) (n : Nat) (content : Str) : Str × Nat :=
  let n1 := n + 1
  let caption := match reSearch mCaptionCmd content with
    | some (_, g, _) => g
    | none => []
  let body := match reSearch mAlgorithmic content with
    | some (_, g, _) => _convert_algorithmic_content g
    | none => _convert_algorithmic_content content
  let num := if card_stt ≠ 0 then natDigits card_stt ++ '.' :: natDigits n1 else natDigits n1
  (algoBox (algoCapHtml num caption) body, n1)

/-- `_standalone_algorithmic`: replacement for a bare `algorithmic` block. -/
def standaloneAlgorithmicRepl (card_stt : Nat) (n : Nat) (g : Str) : Str × Nat :=
  let n1 := n + 1
  let num := if card_stt ≠ 0 then natDigits card_stt ++ '.' :: natDigits n1 else natDigits n1
  (algoBox (algoCapHtml num []) (_convert_algorithmic_content g), n1)

/-- `_algo2e_repl`: replacement for an `algorithm2e` environment (the caption
match is cut out of the body before conversion). -/
def algo2eRepl (card_stt : Nat) (n : Nat) (content : Str) : Str × Nat :=
  let n1 := n + 1
  let capSearch := reSearch mCaptionCmd content
  let caption := match capSearch with
    | some (_, g, _) => g
    | none => []
  let content2 := match capSearch with
    | some (pre, _, rest) => pre ++ rest
    | none => content
  let body := _convert_algorithm2e_content content2
  let num := if card_stt ≠ 0 then natDigits card_stt ++ '.' :: natDigits n1 else natDigits n1
  (algoBox (algoCapHtml num caption) body, n1)

/-- `convert_algorithm_environments` (source lines 1202-1304). -/
def convert_algorithm_environments (text : Str) (card_stt : Nat) : Str :=
  let p1 := reSub (mEnvOptBody (("algorithm").data))
    (fun n a => algoRepl card_stt n a) 0 text
  let p2 := reSub mAlgorithmic
    (fun n a => standaloneAlgorithmicRepl card_stt n a) p1.2 p1.1
  let p3 := reSub (mEnvOptBody (("algorithm2e").data))
    (fun n a => algo2eRepl card_stt n a) p2.2 p2.1
  p3.1

/-! ## Environment conversion (`convert_environments`, source lines 518-587) -/

/-- The numbered style classes. -/
def NUMBERED_CSS : List Str :=
  [("env-theorem").data, ("env-definition").data, ("env-example").data]

/-- Per-label counters (`label_counters` dict): lookup with default 0. -/
def lcGet (m : List (Str × Nat)) (k : Str) : Nat :=
  match m.find? (fun p => p.1 == k) with
  | some p => p.2
  | none => 0

/-- Per-label counters: set (update in place, else append). -/
def lcSet (m : List (Str × Nat)) (k : Str) (v : Nat) : List (Str × Nat) :=
  if m.any (fun p => p.1 == k) then
    m.map (fun p => if p.1 == k then (k, v) else p)
  else m ++ [(k, v)]

/-- Matcher for `\\begin\{env\}\[([^\]]*)\](.*?)\\end\{env\}`. -/
def mEnvTitle (name : Str) (cs : Str) : Option ((Str × Str) × Str) :=
  match litM (beginTok name) cs with
  | some r1 =>
    match brackSimple r1 with
    | some (title, r2) =>
      match takeUntil (endTok name) r2 with
      | some (content, rest) => some ((title, content), rest)
      | none => none
    | none => none
  | none => none

/-- Matcher for `\\begin\{env\}(.*?)\\end\{env\}`. -/
def mEnvNoTitle (name : Str) (cs : Str) : Option (Str × Str) :=
  match litM (beginTok name) cs with
  | some r1 => takeUntil (endTok name) r1
  | none => none

/-- The environment div `<div class="{cc}"><strong>{ts}:</strong><br>\n{c}\n</div>`. -/
def envDiv (cc ts c : Str) : Str :=
  ("<div class=\"").data ++ cc ++ ("\"><strong>").data ++ ts ++
    (":</strong><br>\n").data ++ c ++ ("\n</div>").data

/-- Header text of a numbered/unnumbered environment (`repl_title` /
`repl_no` logic): a numbered environment bumps its label's counter and shows
`{label} {num}` (plus a parenthesized title when present); an unnumbered one
shows only the label (plus title). -/
def envHeader (pfx : Str) (lb : Str) (sn : Bool) (title : Option Str)
    (ctrs : List (Str × Nat)) : Str × List (Str × Nat) :=
  let t := match title with
    | some t0 => pyStrip t0
    | none => []
  if sn then
    let n := lcGet ctrs lb + 1
    let num := numFmt pfx n
    let ts := if t ≠ [] then lb ++ ' ' :: num ++ (" (").data ++ t ++ [')']
      else lb ++ ' ' :: num
    (ts, lcSet ctrs lb n)
  else
    let ts := if t ≠ [] then lb ++ (" (").data ++ t ++ [')'] else lb
    (ts, ctrs)

/-- `convert_environments` (source lines 518-587): for each mapping entry, a
titled pass then an untitled pass; numbering is per display label across all
passes; finally the standard `proof` environment, never numbered. -/
def convert_environments (text : Str) (environments : List (Str × Str × Str))
    (proof_label : Str) (card_stt : Nat) : Str :=
  let pfx := if card_stt ≠ 0 then natDigits card_stt else []
  let step := fun (p : Str × List (Str × Nat)) (e : Str × Str × Str) =>
    let env_name := e.1
    let cc := e.2.1
    let lb := e.2.2
    let sn := NUMBERED_CSS.contains cc
    let q1 := reSub (mEnvTitle env_name)
      (fun ctrs (a : Str × Str) =>
        let h := envHeader pfx lb sn (some a.1) ctrs
        (envDiv cc h.1 (pyStrip a.2), h.2)) p.2 p.1
    let q2 := reSub (mEnvNoTitle env_name)
      (fun ctrs (c : Str) =>
        let h := envHeader pfx lb sn none ctrs
        (envDiv cc h.1 (pyStrip c), h.2)) q1.2 q1.1
    (q2.1, q2.2)
  let fin := environments.foldl step (text, ([] : List (Str × Nat)))
  reSubP (mEnvNoTitle (("proof").data))
    (fun c => envDiv (("env-proof").data) proof_label (pyStrip c)) fin.1

/-- `DEFAULT_ENVIRONMENTS` (source lines 42-71), in insertion order. -/
def DEFAULT_ENVIRONMENTS : List (Str × Str × Str) :=
  [(("dinhly").data, ("env-theorem").data, ("Dinh ly").data),
   (("bode").data, ("env-theorem").data, ("Bo de").data),
   (("menhde").data, ("env-theorem").data, ("Menh de").data),
   (("hequa").data, ("env-theorem").data, ("He qua").data),
   (("dinhri").data, ("env-theorem").data, ("Dinh ly").data),
   (("giaithiet").data, ("env-theorem").data, ("Gia thiet").data),
   (("phongdoan").data, ("env-theorem").data, ("Phong doan").data),
   (("vidu").data, ("env-example").data, ("Vi du").data),
   (("baitap").data, ("env-example").data, ("Bai tap").data),
   (("trucgiac").data, ("box-green").data, ("Truc giac").data),
   (("chungminhsocap").data, ("env-proof").data, ("Chung minh").data),
   (("chungminhnangcao").data, ("box-yellow").data, ("Chung minh (nang cao)").data),
   (("phachoa").data, ("box-red").data, ("Phac hoa").data),
   (("giaithoai").data, ("box-purple").data, ("Giai thoai").data),
   (("luuy").data, ("box-yellow").data, ("Luu y").data),
   (("tomtat").data, ("box-gray").data, ("Tom tat").data),
   (("thuatngu").data, ("box-teal").data, ("Thuat ngu").data),
   (("theorem").data, ("env-theorem").data, ("Theorem").data),
   (("lemma").data, ("env-theorem").data, ("Lemma").data),
   (("proposition").data, ("env-theorem").data, ("Proposition").data),
   (("corollary").data, ("env-theorem").data, ("Corollary").data),
   (("definition").data, ("env-theorem").data, ("Definition").data),
   (("conjecture").data, ("env-theorem").data, ("Conjecture").data),
   (("example").data, ("env-example").data, ("Example").data),
   (("exercise").data, ("env-example").data, ("Exercise").data),
   (("remark").data, ("box-yellow").data, ("Remark").data),
   (("note").data, ("box-yellow").data, ("Note").data)]

/-! ## Figure/table caption numbering and leftover captions
(inside `latex_to_html`, source lines 1687-1720) -/

/-- `_figure_repl` / `_table_env_repl`: bump the shared counter, prepend the
localized marker to the first caption of the float body. -/
def floatRepl (marker : Str) (card_stt : Nat) (n : Nat) (body : Str) : Str × Nat :=
  let n1 := n + 1
  let num := if card_stt ≠ 0 then natDigits card_stt ++ '.' :: natDigits n1 else natDigits n1
  let body2 := reSubFirst mCaptionCmd
    (fun g => ("\\caption").data ++ obr :: (marker ++ ' ' :: num ++ (": ").data ++ g ++ [cbr])) body
  (body2, n1)

/-- Matcher for `\\centering\s*`. -/
def mCentering (cs : Str) : Option (Unit × Str) :=
  match litM (("\\centering").data) cs with
  | some r => some ((), (wsStar r).2)
  | none => none

/-- Replacement for leftover `\caption{...}`: a centered emphasized paragraph. -/
def captionPara (g : Str) : Str :=
  ("<p class=\"table-caption\" style=\"text-align:center\"><em>").data ++ g ++ ("</em></p>").data

/-! ## Image conversion (`convert_includegraphics`, source lines 1504-1607)

File-system access (`os.path.isdir`/`os.path.isfile`/`open(...).read()`) is
abstracted as a `FileSystem` record; `readBytes` returning `none` models the
caught read exception.  The unguarded `float()` call on the width fraction is
modelled as `Except`: an invalid numeral raises `ValueError` in the source,
which propagates out. -/

structure FileSystem where
  isdir : Str → Bool
  isfile : Str → Bool
  readBytes : Str → Option (List Nat)

/-- The empty file system: no directories, no files. -/
def emptyFS : FileSystem :=
  { isdir := fun _ => false, isfile := fun _ => false, readBytes := fun _ => none }

inductive PyErr where
  | valueError
deriving DecidableEq

instance : DecidableEq (Except PyErr Str) := fun a b =>
  match a, b with
  | Except.ok x, Except.ok y =>
    if h : x = y then Decidable.isTrue (by rw [h])
    else Decidable.isFalse (fun hc => h (Except.ok.inj hc))
  | Except.error x, Except.error y =>
    if h : x = y then Decidable.isTrue (by rw [h])
    else Decidable.isFalse (fun hc => h (Except.error.inj hc))
  | Except.ok _, Except.error _ =>
    Decidable.isFalse (fun hc => Except.noConfusion hc)
  | Except.error _, Except.ok _ =>
    Decidable.isFalse (fun hc => Except.noConfusion hc)

/-- `os.path.dirname` for POSIX paths. -/
def dirname (p : Str) : Str :=
  let r := p.reverse
  if r.all (fun c => c ≠ '/') then []
  else
    let headRev := r.dropWhile (fun c => c ≠ '/')
    let strippedRev := headRev.dropWhile (fun c => c = '/')
    if strippedRev = [] then headRev.reverse else strippedRev.reverse

/-- `os.path.join` for POSIX paths (two components). -/
def pathJoin (a b : Str) : Str :=
  match b with
  | '/' :: _ => b
  | _ =>
    if a = [] then b
    else if a.getLast? = some '/' then a ++ b
    else a ++ '/' :: b

/-- Extension part of `os.path.splitext` (lower-level: last dot of the
basename, unless the basename consists only of leading dots up to it). -/
def splitextExt (p : Str) : Str :=
  let base := (p.reverse.takeWhile (fun c => c ≠ '/')).reverse
  let revBase := base.reverse
  if revBase.all (fun c => c ≠ '.') then []
  else
    let extRev := revBase.takeWhile (fun c => c ≠ '.')
    let stemLen := base.length - (extRev.length + 1)
    if (base.take stemLen).all (fun c => c = '.') then []
    else '.' :: extRev.reverse

/-- ASCII `str.lower()`. -/
def toLowerStr (s : Str) : Str := s.map Char.toLower

/-- `MIME_TYPES.get(ext, 'image/png')`. -/
def mimeOf (ext : Str) : Str :=
  if ext = (".png").data then ("image/png").data
  else if ext = (".jpg").data then ("image/jpeg").data
  else if ext = (".jpeg").data then ("image/jpeg").data
  else if ext = (".gif").data then ("image/gif").data
  else if ext = (".svg").data then ("image/svg+xml").data
  else if ext = (".pdf").data then ("application/pdf").data
  else ("image/png").data

/-- Base64 alphabet. -/
def b64Char (n : Nat) : Char :=
  (("ABCDEFGHIJKLMNOPQRSTUVWXYZabcdefghijklmnopqrstuvwxyz0123456789+/").data).getD n 'A'

/-- `base64.b64encode` over byte values. -/
def b64encode : List Nat → Str
  | [] => []
  | [a] => [b64Char (a / 4 % 64), b64Char (a % 4 * 16), '=', '=']
  | [a, b] => [b64Char (a / 4 % 64), b64Char (a % 4 * 16 + b / 16 % 16), b64Char (b % 16 * 4), '=']
  | a :: b :: c :: rest =>
    [b64Char (a / 4 % 64), b64Char (a % 4 * 16 + b / 16 % 16),
     b64Char (b % 16 * 4 + c / 64 % 4), b64Char (c % 64)] ++ b64encode rest

/-- Search target `width\s*=\s*([\d.]+)\\(textwidth|linewidth)`;
captures the numeral. -/
def mWidthFrac (cs : Str) : Option (Str × Str) :=
  match litM (("width").data) cs with
  | some r1 =>
    match ((wsStar r1).2 : Str) with
    | '=' :: r2 =>
      let r3 := (wsStar r2).2
      let ds := r3.takeWhile (fun c => c.isDigit || c = '.')
      if ds = [] then none
      else
        match r3.dropWhile (fun c => c.isDigit || c = '.') with
        | '\\' :: r4 =>
          match altLits [("textwidth").data, ("linewidth").data] r4 with
          | some (_, r5) => some (ds, r5)
          | none => none
        | _ => none
    | _ => none
  | none => none

/-- Search target `width\s*=\s*([\d.]+(?:cm|mm|in|pt|em))`; captures numeral
with unit. -/
def mWidthAbs (cs : Str) : Option (Str × Str) :=
  match litM (("width").data) cs with
  | some r1 =>
    match ((wsStar r1).2 : Str) with
    | '=' :: r2 =>
      let r3 := (wsStar r2).2
      let ds := r3.takeWhile (fun c => c.isDigit || c = '.')
      if ds = [] then none
      else
        match altLits [("cm").data, ("mm").data, ("in").data, ("pt").data, ("em").data]
            (r3.dropWhile (fun c => c.isDigit || c = '.')) with
        | some (u, r5) => some (ds ++ u, r5)
        | none => none
    | _ => none
  | none => none

/-- Whether Python `float()` accepts a string of digits and dots:
at least one digit, at most one dot. -/
def validPyFloat (ds : Str) : Bool :=
  ds.any Char.isDigit && (ds.filter (fun c => c = '.')).length ≤ 1

/-- `f'{float(ds) * 100:.0f}'` computed in exact decimal arithmetic with
round-half-to-even (ties that differ under binary floating point do not occur
in any statement proved below). -/
def formatPct (ds : Str) : Str :=
  let ip := ds.takeWhile (fun c => c ≠ '.')
  let fp := ((ds.dropWhile (fun c => c ≠ '.')).drop 1)
  let base := digitsVal (ip ++ (fp ++ [('0' : Char), '0']).take 2)
  let rds := fp.drop 2
  let rv := digitsVal rds
  let half := 5 * 10 ^ (rds.length - 1)
  let rounded :=
    if rds = [] then base
    else if rv > half then base + 1
    else if rv < half then base
    else if base % 2 = 0 then base else base + 1
  natDigits rounded

/-- Matcher for `\\includegraphics\s*(?:\[([^\]]*)\])?\s*\{([^}]*)\}`. -/
def mIncludegraphics (cs : Str) : Option ((Option Str × Str) × Str) :=
  match litM (("\\includegraphics").data) cs with
  | none => none
  | some r1 =>
    let w1 := (wsStar r1).2
    let noOpt : Option ((Option Str × Str) × Str) :=
      (bracedSimple w1).map (fun p => ((none, p.1), p.2))
    match brackSimple w1 with
    | some (opts, afterB) =>
      match bracedSimple ((wsStar afterB).2) with
      | some (g, r) => some ((some opts, g), r)
      | none => noOpt
    | none => noOpt

/-- Build the search-directory list: each images dir, then (when new) its
parent followed by the parent's `figures`, `fig`, `imgs` subdirectories,
with duplicates skipped (source lines 1544-1559). -/
def buildSearchDirs (dirs : List Str) : List Str :=
  dirs.foldl (fun acc d =>
    let acc1 := if d ≠ [] ∧ ¬ acc.contains d then acc ++ [d] else acc
    let parent := if d ≠ [] then dirname d else []
    if parent ≠ [] ∧ ¬ acc1.contains parent then
      [("figures").data, ("fig").data, ("imgs").data].foldl (fun a sub =>
        let sd := pathJoin parent sub
        if a.contains sd then a else a ++ [sd]) (acc1 ++ [parent])
    else acc1) []

/-- The extensions tried after the bare filename. -/
def imgExts : List Str :=
  [(".png").data, (".jpg").data, (".jpeg").data, (".svg").data, (".pdf").data]

/-- Resolve the image path: first existing candidate over the search dirs
(source lines 1561-1575). -/
def resolveImg (fs : FileSystem) (searchDirs : List Str) (filename : Str) : Option Str :=
  match searchDirs with
  | [] => none
  | d :: rest =>
    if d = [] ∨ ¬ fs.isdir d then resolveImg fs rest filename
    else
      let cand := pathJoin d filename
      if fs.isfile cand then some cand
      else
        match imgExts.find? (fun ext => fs.isfile (cand ++ ext)) with
        | some ext => some (cand ++ ext)
        | none => resolveImg fs rest filename

/-- The `[Image: {filename}]` placeholder paragraph. -/
def imgMissingP (filename : Str) : Str :=
  ("<p class=\"table-caption\" style=\"text-align:center\"><em>[Image: ").data ++
    filename ++ ("]</em></p>").data

/-- The `[PDF Image: {filename}]` placeholder paragraph. -/
def pdfSkippedP (filename : Str) : Str :=
  ("<p class=\"table-caption\" style=\"text-align:center\"><em>[PDF Image: ").data ++
    filename ++ ("]</em></p>").data

/-- The embedded `<img>` tag. -/
def imgTag (mime data style filename : Str) : Str :=
  ("<img src=\"data:").data ++ mime ++ (";base64,").data ++ data ++
    ("\" style=\"").data ++ style ++ ("\" alt=\"").data ++ filename ++ ("\">").data

/-- Continuation of `_repl` after the style parts are known. -/
def igReplStyled (fs : FileSystem) (images_dirs : List Str) (filename : Str)
    (style_parts : List Str) : Except PyErr Str :=
  match resolveImg fs (buildSearchDirs images_dirs) filename with
  | none => Except.ok (imgMissingP filename)
  | some path =>
    let ext := toLowerStr (splitextExt path)
    let mime := mimeOf ext
    if ext = (".pdf").data then Except.ok (pdfSkippedP filename)
    else
      match fs.readBytes path with
      | none => Except.ok (imgMissingP filename)
      | some bytes =>
        let style0 := if style_parts ≠ [] then List.intercalate (("; ").data) style_parts
          else ("max-width:80%").data
        Except.ok (imgTag mime (b64encode bytes)
          (style0 ++ ("; display:block; margin:0.8em auto").data) filename)

/-- `_repl` of `convert_includegraphics`: parse width options (the fraction
branch calls `float()` unguarded — `ValueError` on an invalid numeral),
resolve the file, and emit an embedded image or a visible placeholder. -/
def igRepl (fs : FileSystem) (images_dirs : List Str) (a : Option Str × Str) :
    Except PyErr Str :=
  let opts := a.1.getD []
  let filename := pyStrip a.2
  match reSearch mWidthFrac opts with
  | some (_, ds, _) =>
    if ¬ validPyFloat ds then Except.error PyErr.valueError
    else igReplStyled fs images_dirs filename
      ([("max-width:").data ++ formatPct ds ++ [('%' : Char)]] ++
        (match reSearch mWidthAbs opts with
         | some (_, w, _) => [("max-width:").data ++ w]
         | none => []))
  | none =>
    igReplStyled fs images_dirs filename
      (match reSearch mWidthAbs opts with
       | some (_, w, _) => [("max-width:").data ++ w]
       | none => [])

/-- Fallible `re.sub`: a replacement raising propagates the exception. -/
def reSubEGo {α ε : Type} (m : Str → Option (α × Str)) (rep : α → Except ε Str) :
    Nat → Str → Except ε Str
  | _, [] => Except.ok []
  | 0, t => Except.ok t
  | fuel + 1, c :: cs =>
    match m (c :: cs) with
    | some (a, rest) =>
      if rest.length < cs.length + 1 then
        match rep a with
        | Except.error e => Except.error e
        | Except.ok r =>
          match reSubEGo m rep fuel rest with
          | Except.error e => Except.error e
          | Except.ok k => Except.ok (r ++ k)
      else
        match reSubEGo m rep fuel cs with
        | Except.error e => Except.error e
        | Except.ok k => Except.ok (c :: k)
    | none =>
      match reSubEGo m rep fuel cs with
      | Except.error e => Except.error e
      | Except.ok k => Except.ok (c :: k)

def reSubE {α ε : Type} (m : Str → Option (α × Str)) (rep : α → Except ε Str)
    (t : Str) : Except ε Str :=
  reSubEGo m rep (t.length + 1) t

/-- The matches a fallible scan consumes, in order. -/
def scanMatches {α : Type} (m : Str → Option (α × Str)) : Nat → Str → List α
  | _, [] => []
  | 0, _ => []
  | fuel + 1, c :: cs =>
    match m (c :: cs) with
    | some (a, rest) =>
      if rest.length < cs.length + 1 then a :: scanMatches m fuel rest
      else scanMatches m fuel cs
    | none => scanMatches m fuel cs

/-- `convert_includegraphics` (source lines 1504-1607).  `images_dir = none`
models `None` (commands are stripped without consulting the file system);
`some dirs` models a directory list (the source normalizes a bare string to
a singleton list). -/
def convert_includegraphics (fs : FileSystem) (images_dir : Option (List Str))
    (text : Str) : Except PyErr Str :=
  match images_dir with
  | none => Except.ok (reSubP mIncludegraphics (fun _ => []) text)
  | some dirs => reSubE mIncludegraphics (igRepl fs dirs) text

/-- Whether a fallible conversion succeeded. -/
def exceptOk : Except PyErr Str → Bool
  | Except.ok _ => true
  | Except.error _ => false

/-! ## Table conversion (`_table_repl` / `convert_tabular`, source lines 593-693) -/

/-- Matcher for the row separator `\\\\(?:\[[^\]]*\])?`. -/
def mRowSep (cs : Str) : Option (Unit × Str) :=
  match litM (("\\\\").data) cs with
  | some r =>
    match brackSimple r with
    | some (_, r2) => some ((), r2)
    | none => some ((), r)
  | none => none

/-- Matcher for `\\(endfirsthead|endhead|endfoot|endlastfoot)\s*`. -/
def mLongtableCmd (cs : Str) : Option (Unit × Str) :=
  match cs with
  | '\\' :: r =>
    (altFirst [("endfirsthead").data, ("endhead").data, ("endfoot").data,
      ("endlastfoot").data] wsCheck r).map (fun p => ((), p.2))
  | _ => none

/-- Matcher for `\\(toprule|midrule|bottomrule|hline)\s*`. -/
def mRuleCmd (cs : Str) : Option (Unit × Str) :=
  match cs with
  | '\\' :: r =>
    (altFirst [("toprule").data, ("midrule").data, ("bottomrule").data,
      ("hline").data] wsCheck r).map (fun p => ((), p.2))
  | _ => none

/-- Matcher for `\\caption\{[^}]*\}\s*` (simple braces). -/
def mCaptionSimpleWS (cs : Str) : Option (Unit × Str) :=
  match litM (("\\caption").data) cs with
  | some r1 =>
    match bracedSimple r1 with
    | some (_, r2) => some ((), (wsStar r2).2)
    | none => none
  | none => none

/-- Matcher for `\\rowcolor\{[^}]*\}\s*`. -/
def mRowcolor (cs : Str) : Option (Unit × Str) :=
  match litM (("\\rowcolor").data) cs with
  | some r1 =>
    match bracedSimple r1 with
    | some (_, r2) => some ((), (wsStar r2).2)
    | none => none
  | none => none

/-- Matcher for `\\textcolor\{[^}]*\}\{((?:[^{}]|\{[^{}]*\})*)\}`. -/
def mTextcolor (cs : Str) : Option (Str × Str) :=
  match litM (("\\textcolor").data) cs with
  | some r1 =>
    match bracedSimple r1 with
    | some (_, r2) => braced1 r2
    | none => none
  | none => none

/-- Joined cell text of one row: cells split on `&`, stripped, joined with `|`. -/
def joinCells (row : Str) : Str :=
  List.intercalate [('|' : Char)] ((row.splitOn '&').map pyStrip)

/-- Header deduplication (source lines 636-646), as the source writes it:
fold with `seen_header` starting as `None`; the first row records its joined
cell text as the header; any later row with equal joined cell text is
skipped; all others are appended. -/
def dedupRowsGo (seen : Option Str) (acc : List Str) : List Str → List Str
  | [] => acc
  | row :: rest =>
    match seen with
    | none => dedupRowsGo (some (joinCells row)) (acc ++ [row]) rest
    | some h =>
      if joinCells row = h then dedupRowsGo (some h) acc rest
      else dedupRowsGo (some h) (acc ++ [row]) rest

/-- Header deduplication (source lines 636-646). -/
def dedupRows (rows : List Str) : List Str :=
  dedupRowsGo none [] rows

/-- Specification-style reading of the deduplication ("if any later row's
cell sequence exactly matches the first row's, drop it"): keep the header,
filter later rows by joined-cell inequality with the header. -/
def dedupRowsSpec (rows : List Str) : List Str :=
  match rows with
  | [] => []
  | h :: rest =>
    h :: rest.filter (fun row => decide (¬ joinCells row = joinCells h))

/-- The `<table ...>` opening tag with its style. -/
def tableOpen : Str :=
  ("<table style=\"width:100%;border-collapse:collapse;margin:16px 0;border-radius:8px;overflow:hidden;box-shadow:0 1px 4px rgba(0,0,0,0.08);font-size:0.95em;\">\n").data

/-- One header cell. -/
def thCell (cell : Str) : Str :=
  ("  <th style=\"padding:10px 14px;font-weight:700;background:#1a365d;color:#fff;\">").data ++
    cell ++ ("</th>\n").data

/-- One body cell (with or without the bottom border). -/
def tdCell (withBorder : Bool) (cell : Str) : Str :=
  if withBorder then
    ("  <td style=\"padding:9px 14px;border-bottom:1px solid #e2e8f0;\">").data ++
      cell ++ ("</td>\n").data
  else
    ("  <td style=\"padding:9px 14px;\">").data ++ cell ++ ("</td>\n").data

/-- Rows of the generated table: header row in `<thead>`, body rows with
alternating background and a border on all but the last row. -/
def tableRowsHtml (data_rows : List Str) : Str :=
  (data_rows.enum.map (fun p =>
    let i := p.1
    let cells := (p.2.splitOn '&').map pyStrip
    if i = 0 then
      ("<thead><tr>\n").data ++ (cells.map thCell).flatten ++
        ("</tr></thead>\n<tbody>\n").data
    else
      let bg := if i % 2 = 1 then ("#fff").data else ("#f7fafc").data
      ("<tr style=\"background:").data ++ bg ++ (";\">\n").data ++
        (cells.map (tdCell (i < data_rows.length - 1))).flatten ++ ("</tr>\n").data)).flatten

/-- The row list of `_table_repl`: strip, remove longtable commands, rules,
captions, labels, styling commands, unwrap `\textcolor`, split on the row
separator, strip each row and drop empties (source lines 601-625). -/
def tableRows (g : Str) : List Str :=
  let c0 := pyStrip g
  let c1 := reSubP mLongtableCmd (fun _ => []) c0
  let c2 := reSubP mRuleCmd (fun _ => []) c1
  let c3 := reSubP mCaptionSimpleWS (fun _ => []) c2
  let c4 := reSubP mLabelWS (fun _ => []) c3
  let c5 := reSubP mRowcolor (fun _ => []) c4
  let c6 := reSubP mDefinecolor (fun _ => []) c5
  let c7 := reSubP mRenewcommandWS (fun _ => []) c6
  let c8 := reSubP mTextcolor (fun gg => gg) c7
  ((reSplit mRowSep c8).map pyStrip).filter (fun r => r ≠ [])

/-- `_table_repl` (source lines 593-670), applied to the captured body of a
tabular/longtable environment. -/
def _table_repl (g : Str) : Str :=
  let rows := tableRows g
  if rows = [] then []
  else
    tableOpen ++ tableRowsHtml (dedupRows rows) ++ ("</tbody></table>").data

/-- Matcher for `\\begin\{name\}` + nested-1 column spec + lazy body +
`\\end\{name\}`; captures the body. -/
def mTabularEnv (name : Str) (cs : Str) : Option (Str × Str) :=
  match litM (beginTok name) cs with
  | some r1 =>
    match braced1 r1 with
    | some (_, r2) => takeUntil (endTok name) r2
    | none => none
  | none => none

/-- `convert_tabular` (source lines 673-693): longtable first, then tabular,
both through the shared `_table_repl`. -/
def convert_tabular (text : Str) : Str :=
  let t1 := reSubP (mTabularEnv (("longtable").data)) _table_repl text
  reSubP (mTabularEnv (("tabular").data)) _table_repl t1

/-! ## List conversion (`convert_lists`, source lines 699-737) -/

/-- Matcher for `\\begin\{enumerate\}\[[^\]]*\]`. -/
def mEnumOpts (cs : Str) : Option (Unit × Str) :=
  match litM (beginTok (("enumerate").data)) cs with
  | some r1 => (brackSimple r1).map (fun p => ((), p.2))
  | none => none

/-- Lazy tempered scan for the innermost-list regex: advance until the
matching `\end` of the given kind, refusing to step over any further
itemize/enumerate begin/end token. -/
def innerScan (kindEnd : Str) : Str → Option (Str × Str)
  | [] => none
  | c :: cs =>
    if kindEnd.isPrefixOf (c :: cs) then some ([], (c :: cs).drop kindEnd.length)
    else if (beginTok (("itemize").data)).isPrefixOf (c :: cs) ∨
        (beginTok (("enumerate").data)).isPrefixOf (c :: cs) ∨
        (endTok (("itemize").data)).isPrefixOf (c :: cs) ∨
        (endTok (("enumerate").data)).isPrefixOf (c :: cs) then none
    else
      (innerScan kindEnd cs).map (fun p => (c :: p.1, p.2))

/-- Matcher for the innermost-list pattern
`\begin{(itemize|enumerate)}(tempered lazy)\end{\1}`; captures the kind
(`true` = itemize) and the content. -/
def mInnerList (cs : Str) : Option ((Bool × Str) × Str) :=
  if (beginTok (("itemize").data)).isPrefixOf cs then
    (innerScan (endTok (("itemize").data))
      (cs.drop (beginTok (("itemize").data)).length)).map
      (fun p => ((true, p.1), p.2))
  else if (beginTok (("enumerate").data)).isPrefixOf cs then
    (innerScan (endTok (("enumerate").data))
      (cs.drop (beginTok (("enumerate").data)).length)).map
      (fun p => ((false, p.1), p.2))
  else none

/-- Matcher for the item separator `\\item\b`. -/
def mItemSep (cs : Str) : Option (Unit × Str) :=
  match litM (("\\item").data) cs with
  | some r => if noWordAhead r then some ((), r) else none
  | none => none

/-- Convert one innermost list body to `<ul>`/`<ol>` html (source lines
719-734): split on `\item`, strip, drop empties, strip a leading bracketed
label, wrap in `<li>`. -/
def listHtml (isItemize : Bool) (content : Str) : Str :=
  let tag := if isItemize then ("ul").data else ("ol").data
  let items := (reSplit mItemSep content).map pyStrip
  let html_items := (items.filter (fun it => it ≠ [])).map (fun it =>
    let it2 := match brackSimple it with
      | some (_, r) => (wsStar r).2
      | none => it
    ("<li>").data ++ it2 ++ ("</li>").data)
  if html_items ≠ [] then
    '<' :: tag ++ (">\n").data ++ List.intercalate ['\n'] html_items ++
      ("\n</").data ++ tag ++ [('>' : Char)]
  else []

/-- The bounded innermost-first loop of `convert_lists`. -/
def convertListsLoop : Nat → Str → Str
  | 0, t => t
  | n + 1, t =>
    match reSearch mInnerList t with
    | some (pre, (kind, content), rest) =>
      convertListsLoop n (pre ++ listHtml kind content ++ rest)
    | none => t

/-- `convert_lists` (source lines 699-737): strip enumerate options, then up
to 20 innermost-first rewrites. -/
def convert_lists (text : Str) : Str :=
  convertListsLoop 20 (reSubP mEnumOpts (fun _ => beginTok (("enumerate").data)) text)

/-! ## Heading numbering (`_number_headings`, source lines 743-787) -/

/-- Heading counters: subsection, subsubsection, paragraph. -/
abbrev HeadSt := Nat × Nat × Nat

/-- One heading step: level 0 = subsection, 1 = subsubsection, 2 = paragraph.
Returns the new counters and the number segments emitted after the prefix
(the subsubsection branch always emits the subsection counter, even when it
is zero; only the paragraph branch skips zero ancestors). -/
def headingStep (st : HeadSt) (level : Nat) : HeadSt × List Nat :=
  let s := st.1
  let ss := st.2.1
  let p := st.2.2
  if level = 0 then
    ((s + 1, 0, 0), [s + 1])
  else if level = 1 then
    ((s, ss + 1, 0), [s, ss + 1])
  else
    if ss > 0 then ((s, ss, p + 1), [s, ss, p + 1])
    else if s > 0 then ((s, ss, p + 1), [s, p + 1])
    else ((s, ss, p + 1), [p + 1])

/-- Render a heading number: the prefix (when present) followed by the
segments, dot-separated — matching the source's per-branch f-strings. -/
def headingNum (pfx : Str) (segs : List Nat) : Str :=
  if pfx ≠ [] then List.intercalate [('.' : Char)] (pfx :: segs.map natDigits)
  else List.intercalate [('.' : Char)] (segs.map natDigits)

/-- Matcher for `\\(subsection|subsubsection|paragraph)\*?\{(nested-1)\}`. -/
def mHeading (cs : Str) : Option ((Nat × Str) × Str) :=
  match cs with
  | '\\' :: r =>
    (altFirst [("subsection").data, ("subsubsection").data, ("paragraph").data]
      (fun r2 =>
        let r3 := match r2 with
          | c :: rr => if c = '*' then rr else r2
          | [] => r2
        braced1 r3) r).map (fun p =>
          ((if p.1 = ("subsection").data then 0
            else if p.1 = ("subsubsection").data then 1 else 2, p.2.1), p.2.2))
  | _ => none

/-- The html heading tag for a level. -/
def headingTag (level : Nat) : Str :=
  if level = 0 then ("h4").data else if level = 1 then ("h5").data else ("h6").data

/-- Replacement of `_number_headings._repl`: strip the title, remove inner
`\label`s, bump counters, emit `<hN>{num}. {title}</hN>`. -/
def headingRepl (pfx : Str) (st : HeadSt) (a : Nat × Str) : Str × HeadSt :=
  let title := reSubP mLabelWS (fun _ => []) (pyStrip a.2)
  let sp := headingStep st a.1
  ('<' :: headingTag a.1 ++ [('>' : Char)] ++ headingNum pfx sp.2 ++ (". ").data ++
    title ++ ("</").data ++ headingTag a.1 ++ [('>' : Char)], sp.1)

/-- `_number_headings` (source lines 743-787). -/
def _number_headings (text : Str) (card_stt : Nat) : Str :=
  let pfx := if card_stt ≠ 0 then natDigits card_stt else []
  (reSub mHeading (fun st a => headingRepl pfx st a) ((0, 0, 0) : HeadSt) text).1

/-! ## Inline formatting, references, special characters
(inside `latex_to_html`, source lines 1734-1824) -/

/-- Matcher for `\\cmd\{(nested-1)\}`. -/
def mCmdArg1 (cmd : Str) (cs : Str) : Option (Str × Str) :=
  match litM cmd cs with
  | some r1 => braced1 r1
  | none => none

/-- Matcher for `\\cmd\{([^}]*)\}` (simple braces). -/
def mCmdArgSimple (cmd : Str) (cs : Str) : Option (Str × Str) :=
  match litM cmd cs with
  | some r1 => bracedSimple r1
  | none => none

/-- One round of the text-formatting substitutions (source lines 1735-1753). -/
def formattingRound (t : Str) : Str :=
  let t1 := reSubP (mCmdArg1 (("\\textbf").data))
    (fun g => ("<strong>").data ++ g ++ ("</strong>").data) t
  let t2 := reSubP (mCmdArg1 (("\\textit").data))
    (fun g => ("<em>").data ++ g ++ ("</em>").data) t1
  let t3 := reSubP (mCmdArg1 (("\\emph").data))
    (fun g => ("<em>").data ++ g ++ ("</em>").data) t2
  let t4 := reSubP (mCmdArg1 (("\\texttt").data))
    (fun g => ("<code>").data ++ g ++ ("</code>").data) t3
  let t5 := reSubP (mCmdArg1 (("\\textsc").data)) (fun g => g) t4
  reSubP (mCmdArg1 (("\\underline").data))
    (fun g => ("<u>").data ++ g ++ ("</u>").data) t5

/-- Matcher for `\\termfull\{..\}\{..\}\{..\}` (three nested-1 groups). -/
def mTermfull (cs : Str) : Option ((Str × Str × Str) × Str) :=
  match litM (("\\termfull").data) cs with
  | some r1 =>
    match braced1 r1 with
    | some (g1, r2) =>
      match braced1 r2 with
      | some (g2, r3) =>
        match braced1 r3 with
        | some (g3, r4) => some ((g1, g2, g3), r4)
        | none => none
      | none => none
    | none => none
  | none => none

/-- Matcher for `\\term\{..\}\{..\}` (two nested-1 groups). -/
def mTerm (cs : Str) : Option ((Str × Str) × Str) :=
  match litM (("\\term").data) cs with
  | some r1 =>
    match braced1 r1 with
    | some (g1, r2) =>
      match braced1 r2 with
      | some (g2, r3) => some ((g1, g2), r3)
      | none => none
    | none => none
  | none => none

/-- The glossary-term substitutions (source lines 1756-1767). -/
def termPasses (t : Str) : Str :=
  let t1 := reSubP mTermfull (fun g =>
    ("<strong>").data ++ g.1 ++ ("</strong> (<em>").data ++ g.2.1 ++
      ("</em>): ").data ++ g.2.2) t
  let t2 := reSubP mTerm (fun g =>
    ("<strong>").data ++ g.1 ++ ("</strong> (<em>").data ++ g.2 ++
      ("</em>)").data) t1
  reSubP (mCmdArg1 (("\\termshort").data))
    (fun g => ("<strong>").data ++ g ++ ("</strong>").data) t2

/-- The citation substitution (source lines 1770-1776). -/
def citePass (t : Str) : Str :=
  reSubP (mCmdArgSimple (("\\cite").data)) (fun g =>
    ("<span class=\"cite\">[").data ++
      List.intercalate ((", ").data) ((g.splitOn ',').map pyStrip) ++
      ("]</span>").data) t

/-- Matcher for `\\[cC]ref\{[^}]*\}`. -/
def mCref (cs : Str) : Option (Unit × Str) :=
  match cs with
  | '\\' :: c :: r =>
    if (c = 'c' ∨ c = 'C') ∧ (("ref").data).isPrefixOf r then
      (bracedSimple (r.drop 3)).map (fun p => ((), p.2))
    else none
  | _ => none

/-- The cross-reference substitutions (source lines 1779-1781). -/
def refPasses (cross_ref_text : Str) (t : Str) : Str :=
  let t1 := reSubP mCref (fun _ => cross_ref_text) t
  let t2 := reSubP (mCmdArgSimple (("\\eqref").data)) (fun _ => ("(PT)").data) t1
  reSubP (mCmdArgSimple (("\\ref").data)) (fun _ => ("(?)").data) t2

/-- Footnotes (source lines 1784-1786). -/
def footnotePass (t : Str) : Str :=
  reSubP (mCmdArg1 (("\\footnote").data)) (fun g => (" (").data ++ g ++ [(')' : Char)]) t

/-- Matcher for `\\href\{([^}]*)\}\{([^}]*)\}`. -/
def mHref (cs : Str) : Option ((Str × Str) × Str) :=
  match litM (("\\href").data) cs with
  | some r1 =>
    match bracedSimple r1 with
    | some (g1, r2) =>
      match bracedSimple r2 with
      | some (g2, r3) => some ((g1, g2), r3)
      | none => none
    | none => none
  | none => none

/-- URLs and hyperlinks (source lines 1789-1794). -/
def urlPasses (t : Str) : Str :=
  let t1 := reSubP (mCmdArgSimple (("\\url").data)) (fun g =>
    ("<a href=\"").data ++ g ++ ("\" target=\"_blank\">").data ++ g ++ ("</a>").data) t
  reSubP mHref (fun g =>
    ("<a href=\"").data ++ g.1 ++ ("\" target=\"_blank\">").data ++ g.2 ++ ("</a>").data) t1

/-- Matcher for `\\(levelone|leveltwo|levelthree)\b`. -/
def mLevelCmd (cs : Str) : Option (Unit × Str) :=
  match cs with
  | '\\' :: r =>
    (altFirst [("levelone").data, ("leveltwo").data, ("levelthree").data]
      bCheck r).map (fun p => ((), p.2))
  | _ => none

/-- The spacing command names. -/
def spacingNames : List Str :=
  [("vspace").data, ("hspace").data, ("bigskip").data, ("medskip").data,
   ("smallskip").data]

/-- Matcher for `\\(vspace|hspace|bigskip|medskip|smallskip)\*?\{[^}]*\}`. -/
def mSpacingArg (cs : Str) : Option (Unit × Str) :=
  match cs with
  | '\\' :: r =>
    (altFirst spacingNames (fun r2 =>
      let r3 := match r2 with
        | c :: rr => if c = '*' then rr else r2
        | [] => r2
      (bracedSimple r3).map (fun p => p.2)) r).map (fun p => ((), p.2))
  | _ => none

/-- Matcher for `\\(vspace|hspace|bigskip|medskip|smallskip)\b`. -/
def mSpacingBare (cs : Str) : Option (Unit × Str) :=
  match cs with
  | '\\' :: r => (altFirst spacingNames bCheck r).map (fun p => ((), p.2))
  | _ => none

/-- Matcher for `\\(noindent|indent)\b`. -/
def mNoindent (cs : Str) : Option (Unit × Str) :=
  match cs with
  | '\\' :: r =>
    (altFirst [("noindent").data, ("indent").data] bCheck r).map (fun p => ((), p.2))
  | _ => none

/-- Matcher for `\\(phantom|hphantom|vphantom)\{[^}]*\}`. -/
def mPhantom (cs : Str) : Option (Unit × Str) :=
  match cs with
  | '\\' :: r =>
    (altFirst [("phantom").data, ("hphantom").data, ("vphantom").data]
      (fun r2 => (bracedSimple r2).map (fun p => p.2)) r).map (fun p => ((), p.2))
  | _ => none

/-- Matcher for `\\renewcommand\{..\}\{..\}` (no trailing whitespace eaten). -/
def mRenewNoWS (cs : Str) : Option (Unit × Str) :=
  mTwoBraced (("\\renewcommand").data) cs

/-- Matcher for `\\setlength\{..\}\{..\}` (no trailing whitespace eaten). -/
def mSetlenNoWS (cs : Str) : Option (Unit × Str) :=
  mTwoBraced (("\\setlength").data) cs

/-- The invisible/spacing command removals (source lines 1797-1806). -/
def invisiblePasses (t : Str) : Str :=
  let t1 := reSubP mLevelCmd (fun _ => []) t
  let t2 := reSubP mSpacingArg (fun _ => []) t1
  let t3 := reSubP mSpacingBare (fun _ => []) t2
  let t4 := reSubP mNoindent (fun _ => []) t3
  let t5 := reSubP mPhantom (fun _ => []) t4
  let t6 := reSubP mRenewNoWS (fun _ => []) t5
  reSubP mSetlenNoWS (fun _ => []) t6

/-- The special-character substitutions (source lines 1809-1824), in order. -/
def specialChars (t : Str) : Str :=
  let p := fun (x : Str) (pat rep : Str) => pyReplace x pat rep
  let t1 := p t (("\\&").data) (("&amp;").data)
  let t2 := p t1 (("\\%").data) (("%").data)
  let t3 := p t2 (("\\_").data) (("_").data)
  let t4 := p t3 (("\\#").data) (("#").data)
  let t5 := p t4 (("---").data) (("&mdash;").data)
  let t6 := p t5 (("--").data) (("&ndash;").data)
  let t7 := p t6 [btick, btick] ['“']
  let t8 := p t7 [apos, apos] ['”']
  let t9 := p t8 (("\\ldots").data) ['…']
  let t10 := p t9 (("\\dots").data) ['…']
  let t11 := p t10 (("\\colon").data) ((":").data)
  let t12 := p t11 (("\\quad").data) ((" ").data)
  let t13 := p t12 (("\\qquad").data) (("  ").data)
  let t14 := p t13 (("\\,").data) ((" ").data)
  let t15 := p t14 (("~").data) [' ']
  p t15 (("\\checkmark").data) ['✓']

/-! ## Paragraph wrapping and final cleanup (source lines 1827-1851) -/

/-- Matcher for the paragraph separator `\n\s*\n`: a newline, greedy
whitespace backtracked to the last newline of the run. -/
def mParaSep (cs : Str) : Option (Unit × Str) :=
  match cs with
  | '\n' :: r =>
    let wsRun := r.takeWhile isPyWS
    let afterRev := wsRun.reverse.dropWhile (fun c => c ≠ '\n')
    if afterRev = [] then none else some ((), r.drop afterRev.length)
  | _ => none

/-- The block-start tags of the paragraph wrapper. -/
def block_tags : List Str :=
  [("<div").data, ("<h4").data, ("<h5").data, ("<h6").data, ("<ul").data,
   ("<ol").data, ("<table").data, ("<pre").data, ("$$").data, ("<br").data,
   ("@@CODE_BLOCK_").data]

/-- The contained-block tags of the paragraph wrapper. -/
def inline_block_tags : List Str :=
  [("<div").data, ("<h4").data, ("<h5").data, ("<h6").data, ("<table").data,
   ("<pre").data, ("@@CODE_BLOCK_").data]

/-- Paragraph wrapping (source lines 1827-1841): split on blank lines; keep a
block bare when it starts with a block tag or contains an inline-block tag,
else wrap it in `<p>`. -/
def wrapParagraphs (t : Str) : Str :=
  let blocks := (reSplit mParaSep t).map pyStrip
  let kept := (blocks.filter (fun b => b ≠ [])).map (fun b =>
    if block_tags.any (fun tag => tag.isPrefixOf b) then b
    else if inline_block_tags.any (fun tag => isSubstr b tag) then b
    else ("<p>").data ++ b ++ ("</p>").data)
  List.intercalate (("\n\n").data) kept

/-- Matcher for `\n{3,}`. -/
def mTripleNl (cs : Str) : Option (Unit × Str) :=
  match cs with
  | '\n' :: r =>
    let nl := r.takeWhile (fun c => c = '\n')
    if nl.length + 1 ≥ 3 then some ((), r.drop nl.length) else none
  | _ => none

/-- Final cleanup `re.sub(r'\n{3,}', '\n\n', text)`. -/
def cleanupNewlines (t : Str) : Str :=
  reSubP mTripleNl (fun _ => ("\n\n").data) t

/-! ## The orchestrator (`latex_to_html`, source lines 1610-1851) -/

/-- Pipeline prefix up to (but not including) the figure/table numbering
passes: strip comments, extract code, pre-render TikZ, remove page
breaks/labels/texorpdfstring/formatting-only commands, protect math, convert
algorithms, convert environments.  Returns the text, the math store, and the
code placeholders. -/
def pipelineToFigures (rdr : TikzRenderer) (tex_content : Str)
    (environments : List (Str × Str × Str)) (proof_label : Str) (card_stt : Nat) :
    Str × List Str × List (Str × Str) :=
  let sc := strip_comments tex_content
  let ec := extract_code_environments sc card_stt
  let t0 := convert_tikz_environments rdr ec.1
  let t1 := reSubP mPageBreak (fun _ => []) t0
  let t2 := reSubP mLabel (fun _ => []) t1
  let t3 := reSubP mTexorpdfstring (fun g => g) t2
  let t4 := reSubP mDefinecolor (fun _ => []) t3
  let t5 := reSubP mRenewcommandWS (fun _ => []) t4
  let t6 := reSubP mSetlengthWS (fun _ => []) t5
  let pm := protect_math t6
  let t7 := convert_algorithm_environments pm.1 card_stt
  let t8 := convert_environments t7 environments proof_label card_stt
  (t8, pm.2, ec.2)

/-- The figure- and table-environment numbering passes (source lines
1709-1715), threading the chapter-shared counters. -/
def floatsPass (t : Str) (card_stt fig tab : Nat) : Str × Nat × Nat :=
  let f := reSub (mEnvOptBody (("figure").data))
    (fun n b => floatRepl (("Hình").data) card_stt n b) fig t
  let g := reSub (mEnvOptBody (("table").data))
    (fun n b => floatRepl (("Bảng").data) card_stt n b) tab f.1
  (g.1, f.2, g.2)

/-- The passes between float numbering and image conversion (source lines
1718-1720): drop `\centering`, convert leftover captions to paragraphs. -/
def preImages (t : Str) : Str :=
  reSubP mCaptionCmd captionPara (reSubP mCentering (fun _ => []) t)

/-- The pure rewrite passes between image conversion and restoration:
tables, center unwrapping, lists, headings, formatting (three rounds),
glossary terms, citations, cross-references, footnotes, URLs, invisible
commands, special characters, paragraph wrapping. -/
def preRestore (t : Str) (cross_ref_text : Str) (card_stt : Nat) : Str :=
  let t4 := convert_tabular t
  let t5a := reSubP (fun cs => (litM (beginTok (("center").data)) cs).map
    (fun r => ((), (wsStar r).2))) (fun (_ : Unit) => []) t4
  let t5 := reSubP (fun cs => (litM (endTok (("center").data)) cs).map
    (fun r => ((), (wsStar r).2))) (fun (_ : Unit) => []) t5a
  let t6 := convert_lists t5
  let t7 := _number_headings t6 card_stt
  let t8 := formattingRound (formattingRound (formattingRound t7))
  let t9 := termPasses t8
  let t10 := citePass t9
  let t11 := refPasses cross_ref_text t10
  let t12 := footnotePass t11
  let t13 := urlPasses t12
  let t14 := invisiblePasses t13
  let t15 := specialChars t14
  wrapParagraphs t15

/-- The pipeline suffix after image conversion: the pure rewrite passes of
`preRestore`, then math restoration, then (strictly after it) code
restoration, final newline cleanup and strip. -/
def afterImages (t : Str) (cross_ref_text : Str) (card_stt : Nat)
    (math_store : List Str) (code_placeholders : List (Str × Str)) : Str :=
  pyStrip (cleanupNewlines (restore_code_placeholders
    (restore_math (preRestore t cross_ref_text card_stt) math_store)
    code_placeholders))

/-- `latex_to_html` (source lines 1610-1851).  The external TikZ toolchain
and the file system are explicit parameters; the caller-supplied mutable
figure/table counters become a counter-in/counter-out pair, returned even
when the unguarded width parse raises (the counters are mutated before the
image pass runs).  `environments = none` selects `DEFAULT_ENVIRONMENTS`. -/
def latex_to_html (rdr : TikzRenderer) (fs : FileSystem) (tex_content : Str)
    (environments : Option (List (Str × Str × Str))) (proof_label : Str)
    (cross_ref_text : Str) (images_dir : Option (List Str))
    (figure_counter table_counter : Nat) (card_stt : Nat) :
    Except PyErr Str × Nat × Nat :=
  let envs := environments.getD DEFAULT_ENVIRONMENTS
  let pf := pipelineToFigures rdr tex_content envs proof_label card_stt
  let fl := floatsPass pf.1 card_stt figure_counter table_counter
  match convert_includegraphics fs images_dir (preImages fl.1) with
  | Except.error e => (Except.error e, fl.2)
  | Except.ok t3 =>
    (Except.ok (afterImages t3 cross_ref_text card_stt pf.2.1 pf.2.2), fl.2)

/-- The per-chapter section loop of `process_chapter` (source lines
2022-2066), restricted to its counter threading: each section (content and
card number) is converted with the same counter pair, mutated in place. -/
def processSections (rdr : TikzRenderer) (fs : FileSystem)
    (environments : Option (List (Str × Str × Str))) (proof_label : Str)
    (cross_ref_text : Str) (images_dir : Option (List Str))
    (sections : List (Str × Nat)) (fig tab : Nat) :
    List (Except PyErr Str) × Nat × Nat :=
  match sections with
  | [] => ([], fig, tab)
  | (content, stt) :: rest =>
    let r := latex_to_html rdr fs content environments proof_label
      cross_ref_text images_dir fig tab stt
    let k := processSections rdr fs environments proof_label cross_ref_text
      images_dir rest r.2.1 r.2.2
    (r.1 :: k.1, k.2)

/-! # Claim theorems -/

/-! ## C4: heading numbers and zero segments -/

/-- The number segments emitted by a sequence of heading commands
(level 0 = subsection, 1 = subsubsection, 2 = paragraph), starting from a
given counter state — the fold of `headingStep`, which is exactly what
`_number_headings` performs across its matches. -/
def headingSegsList (st : HeadSt) : List Nat → List (List Nat)
  | [] => []
  | l :: ls =>
    let sp := headingStep st l
    sp.2 :: headingSegsList sp.1 ls

theorem headingSegsList_no_zero (cmds : List Nat) (st : HeadSt)
    (hP : st.2.1 > 0 → st.1 > 0)
    (hpre : st.1 = 0 → ∀ pre post, cmds = pre ++ 1 :: post → (0 : Nat) ∈ pre) :
    ∀ segs ∈ headingSegsList st cmds, (0 : Nat) ∉ segs := by
  induction cmds generalizing st with
  | nil => intro segs h; simp [headingSegsList] at h
  | cons l ls ih =>
    intro segs hmem
    obtain ⟨s, ss, p⟩ := st
    by_cases h0 : l = 0
    · subst h0
      simp only [headingSegsList, headingStep] at hmem
      simp only [List.mem_cons] at hmem
      rcases hmem with rfl | hmem
      · simp
      · exact ih (s + 1, 0, 0) (by intro h; omega)
          (by intro h; omega) segs hmem
    · by_cases h1 : l = 1
      · subst h1
        have hs : s > 0 := by
          by_contra hs0
          have hs0' : s = 0 := by omega
          have := hpre hs0' [] ls (by simp)
          simp at this
        simp only [headingSegsList, headingStep] at hmem
        simp only [List.mem_cons] at hmem
        rcases hmem with rfl | hmem
        · intro hc
          simp at hc
          omega
        · exact ih (s, ss + 1, 0) (by intro _; exact hs)
            (by intro h; omega) segs hmem
      · have hstep : headingStep (s, ss, p) l =
            (if ss > 0 then ((s, ss, p + 1), [s, ss, p + 1])
             else if s > 0 then ((s, ss, p + 1), [s, p + 1])
             else ((s, ss, p + 1), [p + 1])) := by
          simp [headingStep, h0, h1]
        have hrec : ∀ segs ∈ headingSegsList (s, ss, p + 1) ls, (0 : Nat) ∉ segs := by
          refine ih (s, ss, p + 1) hP ?_
          intro hs0 pre post heq
          have := hpre hs0 (l :: pre) post (by simp [heq])
          simp at this
          rcases this with h | h
          · omega
          · exact h
        simp only [headingSegsList, hstep] at hmem
        by_cases hss : ss > 0
        · simp only [if_pos hss, List.mem_cons] at hmem
          rcases hmem with rfl | hmem
          · have hs : s > 0 := hP hss
            intro hc; simp at hc; omega
          · exact hrec segs hmem
        · simp only [if_neg hss] at hmem
          by_cases hs : s > 0
          · simp only [if_pos hs, List.mem_cons] at hmem
            rcases hmem with rfl | hmem
            · intro hc; simp at hc; omega
            · exact hrec segs hmem
          · simp only [if_neg hs, List.mem_cons] at hmem
            rcases hmem with rfl | hmem
            · intro hc; simp at hc
            · exact hrec segs hmem

/-- C4 counterexample: a `\subsubsection` with no preceding `\subsection`
emits the subsection counter as a literal `0` segment — `8.0.1` — so the
claim that an absent ancestor level is never emitted as a zero segment fails
as stated. -/
theorem C4_counterexample :
    _number_headings ((("\\subsubsection").data ++ obr :: ("T").data ++ [cbr])) 8 =
      (("<h5>8.0.1. T</h5>").data) ∧
    isSubstr (_number_headings ((("\\subsubsection").data ++ obr :: ("T").data ++ [cbr])) 8)
      ((".0.").data) = true := by
  constructor
  · rfl
  · rfl

/-- C4 (amended): in `_number_headings`' counter machine, heading numbers
consist of the prefix plus only nonzero segments — an absent ancestor is
skipped rather than emitted as 0 — PROVIDED every subsubsection command is
preceded by some subsection command; moreover a paragraph heading under an
active subsection with no subsubsection emits exactly
`{prefix}.{L1}.{L3}` (the absent level-2 is skipped), as witnessed at text
level by the final conjunct. -/
theorem C4_amended :
    (∀ cmds : List Nat,
      (∀ pre post, cmds = pre ++ 1 :: post → (0 : Nat) ∈ pre) →
      ∀ segs ∈ headingSegsList (0, 0, 0) cmds, (0 : Nat) ∉ segs) ∧
    (∀ st : HeadSt, st.1 > 0 → st.2.1 = 0 →
      (headingStep st 2).2 = [st.1, st.2.2 + 1]) ∧
    _number_headings ((("\\subsection").data ++ obr :: ("A").data ++ cbr ::
        ' ' :: ("\\paragraph").data ++ obr :: ("B").data ++ [cbr])) 8 =
      (("<h4>8.1. A</h4> <h6>8.1.1. B</h6>").data) := by
  refine ⟨?_, ?_, ?_⟩
  · intro cmds hpre
    exact headingSegsList_no_zero cmds (0, 0, 0) (by decide)
      (fun _ => hpre)
  · intro st h1 h2
    obtain ⟨s, ss, p⟩ := st
    simp only at h1 h2
    simp [headingStep, h2, h1]
  · rfl

/-- C4 witness: the amended theorem applied at the command sequence
subsection, subsubsection, paragraph (every subsubsection preceded by a
subsection): no emitted segment is zero. -/
theorem C4_witness :
    ∀ segs ∈ headingSegsList (0, 0, 0) [0, 1, 2], (0 : Nat) ∉ segs := by
  refine C4_amended.1 [0, 1, 2] ?_
  intro pre post h
  match pre, h with
  | [], h => simp at h
  | [a], h =>
    simp at h
    simp [h.1]
  | a :: b :: pre', h =>
    simp at h
    obtain ⟨rfl, rfl, h⟩ := h
    simp

/-! ## C3: per-label environment numbering -/

theorem find_map_lcSet (l : List (Str × Nat)) (lb lb' : Str) (n : Nat)
    (h : lb' ≠ lb) :
    List.find? (fun p => p.1 == lb') (l.map (fun p => if p.1 == lb then (lb, n) else p)) =
      List.find? (fun p => p.1 == lb') l := by
  induction l with
  | nil => rfl
  | cons p ps ih =>
    obtain ⟨p1, p2⟩ := p
    have hlb : (lb == lb') = false := by
      simp
      exact fun hc => h hc.symm
    by_cases hb : p1 = lb
    · subst hb
      simp only [List.map_cons, beq_self_eq_true, if_true]
      rw [List.find?_cons_of_neg _ (by simp [hlb]),
        List.find?_cons_of_neg _ (by simp; exact fun hc => h hc.symm)]
      exact ih
    · have hb' : (p1 == lb) = false := by simp [hb]
      simp only [List.map_cons, hb']
      simp only [Bool.false_eq_true, if_false]
      by_cases hp : p1 = lb'
      · subst hp
        rw [List.find?_cons_of_pos _ (by simp), List.find?_cons_of_pos _ (by simp)]
      · rw [List.find?_cons_of_neg _ (by simp [hp]),
          List.find?_cons_of_neg _ (by simp [hp])]
        exact ih

theorem find_append_lcSet (l : List (Str × Nat)) (lb lb' : Str) (n : Nat)
    (h : lb' ≠ lb) :
    List.find? (fun p => p.1 == lb') (l ++ [(lb, n)]) =
      List.find? (fun p => p.1 == lb') l := by
  induction l with
  | nil =>
    have hlb : (lb == lb') = false := by
      simp
      exact fun hc => h hc.symm
    simp [List.find?, hlb]
  | cons p ps ih =>
    simp only [List.cons_append]
    by_cases hp : p.1 = lb'
    · rw [List.find?_cons_of_pos _ (by simp [hp]), List.find?_cons_of_pos _ (by simp [hp])]
    · rw [List.find?_cons_of_neg _ (by simp [hp]), List.find?_cons_of_neg _ (by simp [hp])]
      exact ih

theorem lcGet_lcSet_ne (ctrs : List (Str × Nat)) (lb lb' : Str) (n : Nat)
    (h : lb' ≠ lb) : lcGet (lcSet ctrs lb n) lb' = lcGet ctrs lb' := by
  unfold lcSet
  split
  · unfold lcGet
    rw [find_map_lcSet ctrs lb lb' n h]
  · unfold lcGet
    rw [find_append_lcSet ctrs lb lb' n h]

set_option maxRecDepth 20000 in
set_option maxHeartbeats 8000000 in
/-- C3 (confirmed): environments whose style class lies in the numbered set
get a per-display-label running counter — the header of a numbered
environment is `{label} {prefix}.{count}` with count one more than the
label's previous value, and only that label's counter changes; distinct
labels are independent and each starts from `lcGet [] lb = 0`, so the first
occurrence is numbered 1; non-numbered (box) style classes never receive a
number and never touch the counters; with card prefix 8, one `theorem` and
one `definition` in the same section both render as `8.1`, and a box
environment shows no number. -/
theorem C3_per_label_numbering :
    (∀ (pfx lb : Str) (title : Option Str) (ctrs : List (Str × Nat)),
      (envHeader pfx lb true title ctrs).2 = lcSet ctrs lb (lcGet ctrs lb + 1) ∧
      (title = none →
        (envHeader pfx lb true title ctrs).1 = lb ++ ' ' :: numFmt pfx (lcGet ctrs lb + 1))) ∧
    (∀ (pfx lb : Str) (title : Option Str) (ctrs : List (Str × Nat)),
      (envHeader pfx lb false title ctrs).2 = ctrs ∧
      (title = none → (envHeader pfx lb false title ctrs).1 = lb)) ∧
    (∀ (ctrs : List (Str × Nat)) (lb lb' : Str) (n : Nat), lb' ≠ lb →
      lcGet (lcSet ctrs lb n) lb' = lcGet ctrs lb') ∧
    (∀ lb : Str, lcGet [] lb = 0) ∧
    (NUMBERED_CSS = [("env-theorem").data, ("env-definition").data, ("env-example").data]) ∧
    isSubstr (convert_environments
      ((("\\begin").data ++ obr :: ("theorem").data ++ cbr :: ("A").data ++
        ("\\end").data ++ obr :: ("theorem").data ++ cbr :: '\n' ::
        ("\\begin").data ++ obr :: ("definition").data ++ cbr :: ("B").data ++
        ("\\end").data ++ obr :: ("definition").data ++ [cbr]))
      DEFAULT_ENVIRONMENTS (("Proof").data) 8) (("Theorem 8.1:").data) = true ∧
    isSubstr (convert_environments
      ((("\\begin").data ++ obr :: ("theorem").data ++ cbr :: ("A").data ++
        ("\\end").data ++ obr :: ("theorem").data ++ cbr :: '\n' ::
        ("\\begin").data ++ obr :: ("definition").data ++ cbr :: ("B").data ++
        ("\\end").data ++ obr :: ("definition").data ++ [cbr]))
      DEFAULT_ENVIRONMENTS (("Proof").data) 8) (("Definition 8.1:").data) = true ∧
    convert_environments
      ((("\\begin").data ++ obr :: ("note").data ++ cbr :: ("D").data ++
        ("\\end").data ++ obr :: ("note").data ++ [cbr]))
      DEFAULT_ENVIRONMENTS (("Proof").data) 8 =
      envDiv (("box-yellow").data) (("Note").data) (("D").data) := by
  refine ⟨?_, ?_, fun ctrs lb lb' n h => lcGet_lcSet_ne ctrs lb lb' n h, ?_, rfl, ?_, ?_, ?_⟩
  · intro pfx lb title ctrs
    cases title <;> simp [envHeader] <;> split <;> simp
  · intro pfx lb title ctrs
    cases title <;> simp [envHeader] <;> split <;> simp
  · intro lb
    simp [lcGet, List.find?]
  · decide
  · decide
  · decide

/-- C3 witness: the per-label independence conjunct applied at concrete
labels, and the first-count conjunct: bumping `Theorem` does not change
`Definition`, so both labels number from 1. -/
theorem C3_witness :
    lcGet (lcSet [] (("Theorem").data) 1) (("Definition").data) =
      lcGet ([] : List (Str × Nat)) (("Definition").data) ∧
    (envHeader (("8").data) (("Definition").data) true none
      (lcSet [] (("Theorem").data) 1)).1 =
      (("Definition 8.1").data) := by
  constructor
  · exact C3_per_label_numbering.2.2.1 [] (("Theorem").data) (("Definition").data) 1
      (by decide)
  · have h := (C3_per_label_numbering.1 (("8").data) (("Definition").data) none
      (lcSet [] (("Theorem").data) 1)).2 rfl
    rw [h]
    rfl

/-! ## Driver lemmas -/

theorem reSubGo_irrel {α σ : Type} (m : Str → Option (α × Str)) (rep : σ → α → Str × σ) :
    ∀ f g (s : σ) (t : Str), t.length < f → t.length < g →
      reSubGo m rep f s t = reSubGo m rep g s t := by
  intro f
  induction f with
  | zero => intro g s t hf _; exact absurd hf (Nat.not_lt_zero _)
  | succ f ih =>
    intro g s t hf hg
    cases t with
    | nil => cases g with
      | zero => exact absurd hg (Nat.not_lt_zero _)
      | succ g => rfl
    | cons c cs =>
      cases g with
      | zero => exact absurd hg (Nat.not_lt_zero _)
      | succ g =>
        simp only [reSubGo]
        cases hm : m (c :: cs) with
        | none =>
          rw [ih g s cs (by simp at hf; omega) (by simp at hg; omega)]
        | some p =>
          obtain ⟨a, rest⟩ := p
          by_cases hr : rest.length < cs.length + 1
          · simp only [if_pos hr]
            rw [ih g (rep s a).2 rest (by simp at hf; omega) (by simp at hg; omega)]
          · simp only [if_neg hr]
            rw [ih g s cs (by simp at hf; omega) (by simp at hg; omega)]

theorem reSub_cons {α σ : Type} (m : Str → Option (α × Str)) (rep : σ → α → Str × σ)
    (s : σ) (c : Char) (cs : Str) :
    reSub m rep s (c :: cs) =
      (match m (c :: cs) with
       | some (a, rest) =>
         if rest.length < cs.length + 1 then
           ((rep s a).1 ++ (reSub m rep (rep s a).2 rest).1,
             (reSub m rep (rep s a).2 rest).2)
         else (c :: (reSub m rep s cs).1, (reSub m rep s cs).2)
       | none => (c :: (reSub m rep s cs).1, (reSub m rep s cs).2)) := by
  show reSubGo m rep ((c :: cs).length + 1) s (c :: cs) = _
  have hlen : (c :: cs).length + 1 = (cs.length + 1) + 1 := by simp
  rw [hlen]
  simp only [reSubGo]
  cases hm : m (c :: cs) with
  | none => rfl
  | some p =>
    obtain ⟨a, rest⟩ := p
    by_cases hr : rest.length < cs.length + 1
    · simp only [if_pos hr]
      unfold reSub
      rw [reSubGo_irrel m rep (cs.length + 1) (rest.length + 1) (rep s a).2 rest
        hr (Nat.lt_succ_self _)]
    · simp only [if_neg hr]
      rfl

theorem reSub_of_reSearch_none {α σ : Type} (m : Str → Option (α × Str))
    (rep : σ → α → Str × σ) (s : σ) (t : Str) (h : reSearch m t = none) :
    reSub m rep s t = (t, s) := by
  induction t generalizing s with
  | nil => rfl
  | cons c cs ih =>
    have hm : m (c :: cs) = none := by
      cases hmm : m (c :: cs) with
      | some p =>
        obtain ⟨a, r⟩ := p
        rw [reSearch, hmm] at h
        exact absurd h (by simp)
      | none => rfl
    have hrec : reSearch m cs = none := by
      rw [reSearch, hm] at h
      cases hs : reSearch m cs with
      | some p => rw [hs] at h; exact absurd h (by simp)
      | none => rfl
    rw [reSub_cons, hm, ih s hrec]

theorem reSub_nil {α σ : Type} (m : Str → Option (α × Str)) (rep : σ → α → Str × σ)
    (s : σ) : reSub m rep s [] = ([], s) := rfl

theorem reSub_head_match {α σ : Type} (m : Str → Option (α × Str))
    (rep : σ → α → Str × σ) (s : σ) (t : Str) (a : α) (rest : Str)
    (hm : m t = some (a, rest)) (hlt : rest.length < t.length) :
    reSub m rep s t =
      ((rep s a).1 ++ (reSub m rep (rep s a).2 rest).1,
        (reSub m rep (rep s a).2 rest).2) := by
  cases t with
  | nil => exact absurd hlt (by simp)
  | cons c cs =>
    rw [reSub_cons, hm]
    simp only [List.length_cons] at hlt
    simp only [if_pos hlt]

/-! ## C5: long-table header deduplication -/

theorem dedupRowsGo_some (rows : List Str) :
    ∀ (acc : List Str) (h : Str),
      dedupRowsGo (some h) acc rows =
        acc ++ rows.filter (fun row => decide (¬ joinCells row = h)) := by
  induction rows with
  | nil => intro acc h; simp [dedupRowsGo]
  | cons row rest ih =>
    intro acc h
    by_cases hr : joinCells row = h
    · simp only [dedupRowsGo, if_pos hr, ih, List.filter]
      simp [hr]
    · simp only [dedupRowsGo, if_neg hr, ih, List.filter]
      simp [hr]

set_option maxRecDepth 20000 in
set_option maxHeartbeats 8000000 in
/-- C5 (confirmed): the fold of `_table_repl` that deduplicates repeated
header rows is exactly "keep the first row, drop every later row whose
joined cell text equals the first row's"; an empty row list yields empty
output rather than an error; and a longtable whose header row is repeated
verbatim as the 5th of 6 rows yields an HTML table with exactly 5 `<tr>`
rows across `<thead>` and `<tbody>`. -/
theorem C5_header_dedup :
    (∀ rows : List Str, dedupRows rows = dedupRowsSpec rows) ∧
    (∀ g : Str, tableRows g = [] → _table_repl g = []) ∧
    _table_repl [] = [] ∧
    occCount (convert_tabular
      (("\\begin{longtable}{|c|c|}\nH1 & H2 \\\\\nr1 & s1 \\\\\nr2 & s2 \\\\\nr3 & s3 \\\\\nH1 & H2 \\\\\nr4 & s4 \\\\\n\\end{longtable}").data))
      (("<tr").data) = 5 := by
  refine ⟨?_, ?_, ?_, ?_⟩
  · intro rows
    cases rows with
    | nil => rfl
    | cons h rest =>
      show dedupRowsGo (some (joinCells h)) [h] rest = _
      rw [dedupRowsGo_some]
      rfl
  · intro g hg
    unfold _table_repl
    rw [hg]
    rfl
  · decide
  · decide

/-! ## C10: header deduplication applies to plain tabular as well -/

set_option maxRecDepth 20000 in
set_option maxHeartbeats 16000000 in
/-- C10 (confirmed): `convert_tabular` runs the longtable pass and then the
tabular pass through the same replacement callback `_table_repl`, so a plain
`tabular` environment gets the same header deduplication: a well-formed
single tabular environment (column spec parsed by the nested-brace group,
body free of further begin/end tokens, no longtable present) is rewritten to
exactly `_table_repl body`; concretely, a tabular whose second row repeats
the header yields only 2 `<tr>` rows. -/
theorem C10_tabular_dedup :
    (∀ t : Str, convert_tabular t =
      reSubP (mTabularEnv (("tabular").data)) _table_repl
        (reSubP (mTabularEnv (("longtable").data)) _table_repl t)) ∧
    (∀ colspec body : Str,
      braced1 (obr :: (colspec ++ cbr :: (body ++ endTok (("tabular").data)))) =
        some (colspec, body ++ endTok (("tabular").data)) →
      takeUntil (endTok (("tabular").data)) (body ++ endTok (("tabular").data)) =
        some (body, []) →
      reSearch (mTabularEnv (("longtable").data))
        (beginTok (("tabular").data) ++ obr ::
          (colspec ++ cbr :: (body ++ endTok (("tabular").data)))) = none →
      convert_tabular (beginTok (("tabular").data) ++ obr ::
        (colspec ++ cbr :: (body ++ endTok (("tabular").data)))) = _table_repl body) ∧
    occCount (convert_tabular
      (("\\begin{tabular}{cc}\nA & B \\\\\nA & B \\\\\n1 & 2 \\\\\n\\end{tabular}").data))
      (("<tr").data) = 2 := by
  refine ⟨fun t => rfl, ?_, by decide⟩
  intro colspec body h1 h2 h3
  have hfull :
      reSubP (mTabularEnv (("longtable").data)) _table_repl
        (beginTok (("tabular").data) ++ obr ::
          (colspec ++ cbr :: (body ++ endTok (("tabular").data)))) =
      (beginTok (("tabular").data) ++ obr ::
          (colspec ++ cbr :: (body ++ endTok (("tabular").data)))) := by
    unfold reSubP
    rw [reSub_of_reSearch_none _ _ _ _ h3]
  have hmatch : mTabularEnv (("tabular").data)
      (beginTok (("tabular").data) ++ obr ::
        (colspec ++ cbr :: (body ++ endTok (("tabular").data)))) =
      some (body, []) := by
    unfold mTabularEnv litM
    have hpre : (beginTok (("tabular").data)).isPrefixOf
        (beginTok (("tabular").data) ++ obr ::
          (colspec ++ cbr :: (body ++ endTok (("tabular").data)))) = true := by
      rw [List.isPrefixOf_iff_prefix]
      exact List.prefix_append _ _
    rw [if_pos hpre, List.drop_left]
    simp only [h1, h2]
  show (reSub (mTabularEnv (("tabular").data))
      (fun (_ : Unit) a => (_table_repl a, ())) () _).1 = _
  rw [hfull, reSub_head_match _ _ () _ body [] hmatch (by simp [beginTok])]
  simp only [reSub_nil, List.append_nil]

/-! ## C7: innermost-first bounded list conversion -/

theorem innerScan_decomp (ke : Str) :
    ∀ (cs content rest : Str), innerScan ke cs = some (content, rest) →
      cs = content ++ ke ++ rest := by
  intro cs
  induction cs with
  | nil => intro content rest h; exact absurd h (by simp [innerScan])
  | cons c cs ih =>
    intro content rest h
    rw [innerScan] at h
    by_cases hk : ke.isPrefixOf (c :: cs)
    · rw [if_pos hk] at h
      simp only [Option.some.injEq, Prod.mk.injEq] at h
      obtain ⟨h1, h2⟩ := h
      obtain ⟨tl, htl⟩ := List.isPrefixOf_iff_prefix.mp hk
      rw [← h1, ← h2, ← htl, List.drop_left]
      simp
    · rw [if_neg hk] at h
      by_cases hg : ((beginTok (("itemize").data)).isPrefixOf (c :: cs) ∨
          (beginTok (("enumerate").data)).isPrefixOf (c :: cs) ∨
          (endTok (("itemize").data)).isPrefixOf (c :: cs) ∨
          (endTok (("enumerate").data)).isPrefixOf (c :: cs))
      · rw [if_pos hg] at h; exact absurd h (by simp)
      · rw [if_neg hg] at h
        cases hs : innerScan ke cs with
        | none => rw [hs] at h; exact absurd h (by simp)
        | some p =>
          obtain ⟨p1, p2⟩ := p
          rw [hs] at h
          simp only [Option.map_some', Option.some.injEq, Prod.mk.injEq] at h
          obtain ⟨h1, h2⟩ := h
          rw [← h1, ← h2]
          simp [ih p1 p2 hs]

theorem innerScan_no_token (ke : Str) :
    ∀ (cs content rest tok : Str),
      innerScan ke cs = some (content, rest) →
      (tok = beginTok (("itemize").data) ∨ tok = beginTok (("enumerate").data) ∨
        tok = endTok (("itemize").data) ∨ tok = endTok (("enumerate").data)) →
      isSubstr content tok = false := by
  intro cs
  induction cs with
  | nil => intro content rest tok h _; exact absurd h (by simp [innerScan])
  | cons c cs ih =>
    intro content rest tok h htok
    rw [innerScan] at h
    by_cases hk : ke.isPrefixOf (c :: cs)
    · rw [if_pos hk] at h
      simp only [Option.some.injEq, Prod.mk.injEq] at h
      obtain ⟨h1, _⟩ := h
      rw [← h1]
      rcases htok with rfl | rfl | rfl | rfl <;> decide
    · rw [if_neg hk] at h
      by_cases hg : ((beginTok (("itemize").data)).isPrefixOf (c :: cs) ∨
          (beginTok (("enumerate").data)).isPrefixOf (c :: cs) ∨
          (endTok (("itemize").data)).isPrefixOf (c :: cs) ∨
          (endTok (("enumerate").data)).isPrefixOf (c :: cs))
      · rw [if_pos hg] at h; exact absurd h (by simp)
      · rw [if_neg hg] at h
        cases hs : innerScan ke cs with
        | none => rw [hs] at h; exact absurd h (by simp)
        | some p =>
          obtain ⟨p1, p2⟩ := p
          rw [hs] at h
          simp only [Option.map_some', Option.some.injEq, Prod.mk.injEq] at h
          obtain ⟨h1, _⟩ := h
          rw [← h1]
          have hnp : tok.isPrefixOf (c :: p1) = false := by
            by_contra hcon
            have hpre1 : tok <+: (c :: p1) :=
              List.isPrefixOf_iff_prefix.mp (by
                cases hb : tok.isPrefixOf (c :: p1) with
                | false => exact absurd hb hcon
                | true => rfl)
            have hdec := innerScan_decomp ke cs p1 p2 hs
            have hpre2 : (c :: p1) <+: (c :: cs) := by
              rw [hdec]
              exact ⟨ke ++ p2, by simp⟩
            have : tok.isPrefixOf (c :: cs) :=
              List.isPrefixOf_iff_prefix.mpr (hpre1.trans hpre2)
            rcases htok with rfl | rfl | rfl | rfl
            · exact hg (Or.inl this)
            · exact hg (Or.inr (Or.inl this))
            · exact hg (Or.inr (Or.inr (Or.inl this)))
            · exact hg (Or.inr (Or.inr (Or.inr this)))
          have hrec := ih p1 p2 tok hs htok
          rw [isSubstr]
          simp [hnp, hrec]

theorem reSearch_some_matcher {α : Type} (m : Str → Option (α × Str)) :
    ∀ (t pre : Str) (a : α) (rest : Str), reSearch m t = some (pre, a, rest) →
      ∃ s : Str, m s = some (a, rest) := by
  intro t
  induction t with
  | nil => intro pre a rest h; exact absurd h (by simp [reSearch])
  | cons c cs ih =>
    intro pre a rest h
    rw [reSearch] at h
    cases hm : m (c :: cs) with
    | some p =>
      obtain ⟨a1, r1⟩ := p
      rw [hm] at h
      simp only [Option.some.injEq, Prod.mk.injEq] at h
      obtain ⟨_, h2, h3⟩ := h
      exact ⟨c :: cs, by rw [hm, h2, h3]⟩
    | none =>
      rw [hm] at h
      cases hs : reSearch m cs with
      | none => rw [hs] at h; exact absurd h (by simp)
      | some q =>
        obtain ⟨q1, q2, q3⟩ := q
        rw [hs] at h
        simp only [Option.some.injEq, Prod.mk.injEq] at h
        obtain ⟨_, h2, h3⟩ := h
        subst h2
        subst h3
        exact ih _ _ _ hs

theorem mInnerList_no_token {s : Str} {kind : Bool} {content rest tok : Str}
    (h : mInnerList s = some ((kind, content), rest))
    (htok : tok = beginTok (("itemize").data) ∨ tok = beginTok (("enumerate").data) ∨
      tok = endTok (("itemize").data) ∨ tok = endTok (("enumerate").data)) :
    isSubstr content tok = false := by
  unfold mInnerList at h
  by_cases h1 : (beginTok (("itemize").data)).isPrefixOf s
  · rw [if_pos h1] at h
    cases hs : innerScan (endTok (("itemize").data))
        (s.drop (beginTok (("itemize").data)).length) with
    | none => rw [hs] at h; exact absurd h (by simp)
    | some p =>
      obtain ⟨p1, p2⟩ := p
      rw [hs] at h
      simp only [Option.map_some', Option.some.injEq, Prod.mk.injEq] at h
      obtain ⟨⟨_, hc⟩, hr⟩ := h
      rw [← hc]
      exact innerScan_no_token _ _ p1 p2 tok hs htok
  · rw [if_neg h1] at h
    by_cases h2 : (beginTok (("enumerate").data)).isPrefixOf s
    · rw [if_pos h2] at h
      cases hs : innerScan (endTok (("enumerate").data))
          (s.drop (beginTok (("enumerate").data)).length) with
      | none => rw [hs] at h; exact absurd h (by simp)
      | some p =>
        obtain ⟨p1, p2⟩ := p
        rw [hs] at h
        simp only [Option.map_some', Option.some.injEq, Prod.mk.injEq] at h
        obtain ⟨⟨_, hc⟩, hr⟩ := h
        rw [← hc]
        exact innerScan_no_token _ _ p1 p2 tok hs htok
    · rw [if_neg h2] at h
      exact absurd h (by simp)

set_option maxRecDepth 20000 in
set_option maxHeartbeats 8000000 in
/-- C7 (confirmed): `convert_lists` is the 20-iteration innermost-first
loop: each match rewritten by the loop is innermost in that its captured
content contains no further itemize/enumerate begin or end token; the loop
is a total function that returns the text unchanged when the bound is
exhausted, and stops as soon as no list environment remains; a nested
itemize/enumerate input converts fully to `<ul>`/`<ol>`. -/
theorem C7_innermost_bounded :
    (∀ t : Str, convert_lists t =
      convertListsLoop 20
        (reSubP mEnumOpts (fun _ => beginTok (("enumerate").data)) t)) ∧
    (∀ (t pre : Str) (kind : Bool) (content rest : Str),
      reSearch mInnerList t = some (pre, (kind, content), rest) →
      isSubstr content (beginTok (("itemize").data)) = false ∧
      isSubstr content (beginTok (("enumerate").data)) = false ∧
      isSubstr content (endTok (("itemize").data)) = false ∧
      isSubstr content (endTok (("enumerate").data)) = false) ∧
    (∀ t : Str, convertListsLoop 0 t = t) ∧
    (∀ (n : Nat) (t : Str), reSearch mInnerList t = none →
      convertListsLoop (n + 1) t = t) ∧
    convert_lists
      (("\\begin{itemize}\n\\item a\n\\begin{enumerate}\n\\item b\n\\end{enumerate}\n\\item c\n\\end{itemize}").data) =
      (("<ul>\n<li>a\n<ol>\n<li>b</li>\n</ol></li>\n<li>c</li>\n</ul>").data) := by
  refine ⟨fun t => rfl, ?_, fun t => rfl, ?_, by decide⟩
  · intro t pre kind content rest h
    obtain ⟨s, hm⟩ := reSearch_some_matcher mInnerList t pre (kind, content) rest h
    exact ⟨mInnerList_no_token hm (Or.inl rfl),
      mInnerList_no_token hm (Or.inr (Or.inl rfl)),
      mInnerList_no_token hm (Or.inr (Or.inr (Or.inl rfl))),
      mInnerList_no_token hm (Or.inr (Or.inr (Or.inr rfl)))⟩
  · intro n t h
    rw [convertListsLoop, h]

set_option maxRecDepth 20000 in
set_option maxHeartbeats 8000000 in
/-- Witness for C7: the innermost-match and fixpoint conjuncts instantiated
at a concrete nested list. -/
theorem C7_witness :
    (isSubstr (("\n\\item b\n").data) (beginTok (("itemize").data)) = false ∧
      isSubstr (("\n\\item b\n").data) (beginTok (("enumerate").data)) = false ∧
      isSubstr (("\n\\item b\n").data) (endTok (("itemize").data)) = false ∧
      isSubstr (("\n\\item b\n").data) (endTok (("enumerate").data)) = false) ∧
    convertListsLoop 1 (("no lists here").data) = (("no lists here").data) := by
  refine ⟨?_, ?_⟩
  · exact C7_innermost_bounded.2.1
      (("\\begin{enumerate}\n\\item b\n\\end{enumerate}").data) [] false
      (("\n\\item b\n").data) [] (by decide)
  · exact C7_innermost_bounded.2.2.2.1 0 (("no lists here").data) (by decide)

/-! ## C9: images_dir = none strips every includegraphics command -/

theorem litM_suffix {l cs r : Str} (h : litM l cs = some r) : r <:+ cs := by
  unfold litM at h
  by_cases hp : l.isPrefixOf cs
  · rw [if_pos hp] at h
    simp only [Option.some.injEq] at h
    rw [← h]
    exact List.drop_suffix _ _
  · rw [if_neg hp] at h; exact absurd h (by simp)

theorem brackSimple_suffix {cs : Str} {p : Str × Str}
    (h : brackSimple cs = some p) : p.2 <:+ cs := by
  cases cs with
  | nil => exact absurd h (by simp [brackSimple])
  | cons c t =>
    rw [brackSimple] at h
    by_cases hc : c = '['
    · rw [if_pos hc] at h
      cases hd : t.dropWhile (fun x => x ≠ ']') with
      | nil => rw [hd] at h; exact absurd h (by simp)
      | cons d rest =>
        rw [hd] at h
        simp only [Option.some.injEq] at h
        rw [← h]
        have h1 : rest <:+ d :: rest := ⟨[d], rfl⟩
        have h2 : (d :: rest) <:+ t := hd ▸ List.dropWhile_suffix _
        exact (h1.trans h2).trans (List.suffix_cons c t)
    · rw [if_neg hc] at h; exact absurd h (by simp)

theorem bracedSimple_suffix {cs : Str} {p : Str × Str}
    (h : bracedSimple cs = some p) : p.2 <:+ cs := by
  cases cs with
  | nil => exact absurd h (by simp [bracedSimple])
  | cons c t =>
    rw [bracedSimple] at h
    by_cases hc : c = obr
    · rw [if_pos hc] at h
      cases hd : t.dropWhile (fun x => x ≠ cbr) with
      | nil => rw [hd] at h; exact absurd h (by simp)
      | cons d rest =>
        rw [hd] at h
        simp only [Option.some.injEq] at h
        rw [← h]
        have h1 : rest <:+ d :: rest := ⟨[d], rfl⟩
        have h2 : (d :: rest) <:+ t := hd ▸ List.dropWhile_suffix _
        exact (h1.trans h2).trans (List.suffix_cons c t)
    · rw [if_neg hc] at h; exact absurd h (by simp)

theorem wsStar_suffix (cs : Str) : (wsStar cs).2 <:+ cs :=
  List.dropWhile_suffix _

theorem mIncludegraphics_suffix {cs : Str} {a : Option Str × Str} {rest : Str}
    (h : mIncludegraphics cs = some (a, rest)) : rest <:+ cs := by
  unfold mIncludegraphics at h
  cases h1 : litM (("\\includegraphics").data) cs with
  | none => rw [h1] at h; exact absurd h (by simp)
  | some r1 =>
    simp only [h1] at h
    have hr1 : r1 <:+ cs := litM_suffix h1
    have hw1 : (wsStar r1).2 <:+ cs := (wsStar_suffix r1).trans hr1
    cases h2 : brackSimple (wsStar r1).2 with
    | some q =>
      obtain ⟨opts, afterB⟩ := q
      simp only [h2] at h
      have hab : afterB <:+ cs := (brackSimple_suffix h2).trans hw1
      cases h3 : bracedSimple ((wsStar afterB).2) with
      | some g =>
        obtain ⟨gv, rv⟩ := g
        simp only [h3, Option.some.injEq, Prod.mk.injEq] at h
        obtain ⟨_, h5⟩ := h
        rw [← h5]
        exact ((bracedSimple_suffix h3).trans (wsStar_suffix afterB)).trans hab
      | none =>
        simp only [h3] at h
        cases h4 : bracedSimple ((wsStar r1).2) with
        | none => simp [h4] at h
        | some g =>
          obtain ⟨gv, rv⟩ := g
          simp only [h4, Option.map_some', Option.some.injEq, Prod.mk.injEq] at h
          obtain ⟨_, h5⟩ := h
          rw [← h5]
          exact (bracedSimple_suffix h4).trans hw1
    | none =>
      simp only [h2] at h
      cases h4 : bracedSimple ((wsStar r1).2) with
      | none => simp [h4] at h
      | some g =>
        obtain ⟨gv, rv⟩ := g
        simp only [h4, Option.map_some', Option.some.injEq, Prod.mk.injEq] at h
        obtain ⟨_, h5⟩ := h
        rw [← h5]
        exact (bracedSimple_suffix h4).trans hw1

theorem reSubGo_empty_sublist {α : Type} (m : Str → Option (α × Str))
    (hm : ∀ (t : Str) (a : α) (rest : Str), m t = some (a, rest) → rest <:+ t) :
    ∀ (fuel : Nat) (t : Str),
      (reSubGo m (fun (_ : Unit) _ => ([], ())) fuel () t).1.Sublist t := by
  intro fuel
  induction fuel with
  | zero =>
    intro t
    cases t with
    | nil => exact List.Sublist.refl _
    | cons c cs => exact List.Sublist.refl _
  | succ fuel ih =>
    intro t
    cases t with
    | nil => exact List.Sublist.refl _
    | cons c cs =>
      simp only [reSubGo]
      cases hmm : m (c :: cs) with
      | none => exact List.Sublist.cons₂ c (ih cs)
      | some p =>
        obtain ⟨a, rest⟩ := p
        by_cases hr : rest.length < cs.length + 1
        · simp only [if_pos hr, List.nil_append]
          exact (ih rest).trans ((hm _ _ _ hmm).sublist)
        · simp only [if_neg hr]
          exact List.Sublist.cons₂ c (ih cs)

set_option maxRecDepth 20000 in
set_option maxHeartbeats 8000000 in
/-- C9 (confirmed): with `images_dir = none`, `convert_includegraphics`
never consults the file system and simply substitutes the empty string for
every `\includegraphics` match (options and braced argument included), so
the successful output is always a sublist of the input — no `<img>` tag and
no placeholder paragraph can appear; a matched command at the head of the
text is removed entirely and scanning continues on the remainder; two
concrete commands are stripped even on a file system where every file
exists. -/
theorem C9_none_strips :
    (∀ (fs : FileSystem) (text : Str),
      convert_includegraphics fs none text =
        Except.ok (reSubP mIncludegraphics (fun _ => []) text)) ∧
    (∀ (fs : FileSystem) (text out : Str),
      convert_includegraphics fs none text = Except.ok out → out.Sublist text) ∧
    (∀ (t : Str) (a : Option Str × Str) (rest : Str),
      mIncludegraphics t = some (a, rest) → rest.length < t.length →
      reSubP mIncludegraphics (fun _ => []) t =
        reSubP mIncludegraphics (fun _ => []) rest) ∧
    convert_includegraphics
      (FileSystem.mk (fun _ => true) (fun _ => true) (fun _ => some [0]))
      none
      (("See \\includegraphics[width=0.5\\textwidth]{missing.png} and \\includegraphics {fig.pdf} done.").data) =
      Except.ok (("See  and  done.").data) := by
  refine ⟨fun fs text => rfl, ?_, ?_, by decide⟩
  · intro fs text out h
    have h2 : out = reSubP mIncludegraphics (fun _ => []) text := by
      have h3 : (Except.ok out : Except PyErr Str) =
          Except.ok (reSubP mIncludegraphics (fun _ => []) text) := h.symm
      exact Except.ok.inj h3
    rw [h2]
    exact reSubGo_empty_sublist mIncludegraphics
      (fun t a rest hm => mIncludegraphics_suffix hm) (text.length + 1) text
  · intro t a rest hm hlt
    unfold reSubP
    rw [reSub_head_match _ _ () t a rest hm hlt]
    simp only [List.nil_append]

set_option maxRecDepth 20000 in
set_option maxHeartbeats 8000000 in
/-- Witness for C9: the sublist and head-removal conjuncts at concrete
inputs. -/
theorem C9_witness :
    (("See  done.").data).Sublist
      (("See \\includegraphics{missing.png} done.").data) ∧
    reSubP mIncludegraphics (fun _ => [])
      (("\\includegraphics{x}!").data) =
      reSubP mIncludegraphics (fun _ => []) (("!").data) := by
  constructor
  · exact C9_none_strips.2.1 emptyFS
      (("See \\includegraphics{missing.png} done.").data) (("See  done.").data)
      (by decide)
  · exact C9_none_strips.2.2.1 (("\\includegraphics{x}!").data)
      (none, ("x").data) (("!").data) (by decide) (by decide)

set_option maxRecDepth 20000 in
set_option maxHeartbeats 8000000 in
/-- Witness for C5: the dedup equation and empty-rows conjunct at concrete
inputs. -/
theorem C5_witness :
    dedupRows [("A").data, ("B").data, ("A").data] =
      dedupRowsSpec [("A").data, ("B").data, ("A").data] ∧
    (tableRows ((" \n ").data) = [] ∧ _table_repl ((" \n ").data) = []) := by
  constructor
  · exact C5_header_dedup.1 [("A").data, ("B").data, ("A").data]
  · exact ⟨by decide, C5_header_dedup.2.1 ((" \n ").data) (by decide)⟩

set_option maxRecDepth 20000 in
set_option maxHeartbeats 16000000 in
/-- Witness for C10: the general tabular rewrite equation at a concrete
column spec and body. -/
theorem C10_witness :
    convert_tabular (beginTok (("tabular").data) ++ obr ::
      (("cc").data ++ cbr :: ((("\nA & B \\\\\n").data) ++ endTok (("tabular").data)))) =
    _table_repl (("\nA & B \\\\\n").data) := by
  exact C10_tabular_dedup.2.1 (("cc").data) (("\nA & B \\\\\n").data)
    (by decide) (by decide) (by decide)

/-! ## C6: missing images degrade, but an invalid width fraction raises -/

/-- C6 counterexample: an `\includegraphics` width option `1.2.3\textwidth`
matches the width regex, and the unguarded `float()` call raises
`ValueError`, which propagates out of `convert_includegraphics` — the
conversion does not merely degrade. -/
theorem C6_counterexample :
    convert_includegraphics emptyFS (some [("imgs").data])
      (("\\includegraphics[width=1.2.3\\textwidth]{missing.png}").data) =
      Except.error PyErr.valueError := by decide

theorem isSubstr_append_mid (a f b : Str) : isSubstr (a ++ f ++ b) f = true := by
  induction a with
  | nil =>
    rw [isSubstr.eq_def]
    have hp : f.isPrefixOf (([] : Str) ++ f ++ b) = true :=
      List.isPrefixOf_iff_prefix.mpr (by simp [List.prefix_append])
    simp [hp]
  | cons c a ih =>
    rw [List.cons_append, List.cons_append, isSubstr.eq_def]
    simp only [List.append_assoc] at ih
    simp [ih]

theorem igReplStyled_ok (fs : FileSystem) (dirs : List Str)
    (filename : Str) (sp : List Str) :
    exceptOk (igReplStyled fs dirs filename sp) = true := by
  unfold igReplStyled
  cases h : resolveImg fs (buildSearchDirs dirs) filename with
  | none => rfl
  | some path =>
    simp only
    by_cases hp : toLowerStr (splitextExt path) = (".pdf").data
    · simp [hp, exceptOk]
    · simp only [if_neg hp]
      cases hb : fs.readBytes path with
      | none => rfl
      | some bytes => rfl

theorem reSubEGo_ok {α : Type} (m : Str → Option (α × Str))
    (rep : α → Except PyErr Str) :
    ∀ (fuel : Nat) (t : Str),
      (∀ a ∈ scanMatches m fuel t, exceptOk (rep a) = true) →
      exceptOk (reSubEGo m rep fuel t) = true := by
  intro fuel
  induction fuel with
  | zero =>
    intro t _
    cases t with
    | nil => rfl
    | cons c cs => rfl
  | succ fuel ih =>
    intro t hrep
    cases t with
    | nil => rfl
    | cons c cs =>
      simp only [reSubEGo]
      cases hm : m (c :: cs) with
      | none =>
        have hs : ∀ a ∈ scanMatches m fuel cs, exceptOk (rep a) = true := by
          intro a ha
          apply hrep
          simp only [scanMatches, hm]
          exact ha
        cases hk : reSubEGo m rep fuel cs with
        | error e =>
          have := ih cs hs; rw [hk] at this; exact absurd this (by simp [exceptOk])
        | ok k => rfl
      | some p =>
        obtain ⟨a, rest⟩ := p
        by_cases hr : rest.length < cs.length + 1
        · simp only [if_pos hr]
          have hmem : a ∈ scanMatches m (fuel + 1) (c :: cs) := by
            simp only [scanMatches, hm, if_pos hr]
            exact List.mem_cons_self a _
          cases hra : rep a with
          | error e =>
            have := hrep a hmem; rw [hra] at this
            exact absurd this (by simp [exceptOk])
          | ok r =>
            have hs : ∀ x ∈ scanMatches m fuel rest, exceptOk (rep x) = true := by
              intro x hx
              apply hrep
              simp only [scanMatches, hm, if_pos hr]
              exact List.mem_cons_of_mem a hx
            cases hk : reSubEGo m rep fuel rest with
            | error e =>
              have := ih rest hs; rw [hk] at this
              exact absurd this (by simp [exceptOk])
            | ok k => rfl
        · simp only [if_neg hr]
          have hs : ∀ x ∈ scanMatches m fuel cs, exceptOk (rep x) = true := by
            intro x hx
            apply hrep
            simp only [scanMatches, hm, if_neg hr]
            exact hx
          cases hk : reSubEGo m rep fuel cs with
          | error e =>
            have := ih cs hs; rw [hk] at this; exact absurd this (by simp [exceptOk])
          | ok k => rfl

theorem igRepl_ok (fs : FileSystem) (dirs : List Str) (a : Option Str × Str)
    (hw : ∀ (pre ds post : Str),
      reSearch mWidthFrac (a.1.getD []) = some (pre, ds, post) →
      validPyFloat ds = true) :
    exceptOk (igRepl fs dirs a) = true := by
  cases h : reSearch mWidthFrac (a.1.getD []) with
  | none => simp [igRepl, h, igReplStyled_ok]
  | some p =>
    obtain ⟨pre, ds, post⟩ := p
    have hv : validPyFloat ds = true := hw pre ds post h
    simp [igRepl, h, hv, igReplStyled_ok]

set_option maxRecDepth 20000 in
set_option maxHeartbeats 8000000 in
/-- C6 (corrected): the missing-file and resolved-PDF branches do return a
visible placeholder that contains the filename, and — provided every width
fraction appearing in a matched options group parses as a valid Python
float — the whole conversion returns `ok`; but the claim's "no exception
propagates" is false in general: an invalid numeral such as `1.2.3` in a
width option raises `ValueError` (see the counterexample), so success is
guaranteed only under the width-validity hypothesis. -/
theorem C6_amended :
    (∀ (fs : FileSystem) (dirs : List Str) (filename : Str) (sp : List Str),
      resolveImg fs (buildSearchDirs dirs) filename = none →
      igReplStyled fs dirs filename sp = Except.ok (imgMissingP filename)) ∧
    (∀ filename : Str, isSubstr (imgMissingP filename) filename = true ∧
      isSubstr (pdfSkippedP filename) filename = true) ∧
    (∀ (fs : FileSystem) (dirs : List Str) (filename : Str) (sp : List Str)
      (path : Str),
      resolveImg fs (buildSearchDirs dirs) filename = some path →
      toLowerStr (splitextExt path) = (".pdf").data →
      igReplStyled fs dirs filename sp = Except.ok (pdfSkippedP filename)) ∧
    (∀ (fs : FileSystem) (dirs : List Str) (text : Str),
      (∀ a ∈ scanMatches mIncludegraphics (text.length + 1) text,
        ∀ (pre ds post : Str),
          reSearch mWidthFrac ((a : Option Str × Str).1.getD []) =
            some (pre, ds, post) →
          validPyFloat ds = true) →
      exceptOk (convert_includegraphics fs (some dirs) text) = true) ∧
    convert_includegraphics emptyFS (some [("imgs").data])
      (("Fig: \\includegraphics{missing.png}.").data) =
      Except.ok ((("Fig: ").data) ++ imgMissingP (("missing.png").data) ++
        ((".").data)) := by
  refine ⟨?_, ?_, ?_, ?_, by decide⟩
  · intro fs dirs filename sp h
    simp [igReplStyled, h]
  · intro filename
    exact ⟨isSubstr_append_mid _ filename _, isSubstr_append_mid _ filename _⟩
  · intro fs dirs filename sp path h hp
    simp [igReplStyled, h, hp]
  · intro fs dirs text hw
    exact reSubEGo_ok mIncludegraphics (igRepl fs dirs) (text.length + 1) text
      (fun a ha => igRepl_ok fs dirs a (hw a ha))

set_option maxRecDepth 20000 in
set_option maxHeartbeats 8000000 in
/-- Witness for C6: the missing-file, PDF and whole-text conjuncts at
concrete inputs. -/
theorem C6_witness :
    igReplStyled emptyFS [("imgs").data] (("x.png").data) [] =
      Except.ok (imgMissingP (("x.png").data)) ∧
    igReplStyled
      (FileSystem.mk (fun d => d == ("imgs").data)
        (fun f => f == ("imgs/a.pdf").data) (fun _ => none))
      [("imgs").data] (("a").data) [] =
      Except.ok (pdfSkippedP (("a").data)) ∧
    exceptOk (convert_includegraphics emptyFS (some [("imgs").data])
      (("no images here").data)) = true := by
  refine ⟨?_, ?_, ?_⟩
  · exact C6_amended.1 emptyFS [("imgs").data] (("x.png").data) [] (by decide)
  · exact C6_amended.2.2.1
      (FileSystem.mk (fun d => d == ("imgs").data)
        (fun f => f == ("imgs/a.pdf").data) (fun _ => none))
      [("imgs").data] (("a").data) [] (("imgs/a.pdf").data)
      (by decide) (by decide)
  · have hnil : scanMatches mIncludegraphics
        (((("no images here").data)).length + 1) (("no images here").data) =
        ([] : List (Option Str × Str)) := by decide
    exact C6_amended.2.2.2.1 emptyFS [("imgs").data] (("no images here").data)
      (fun a ha => by
        rw [hnil] at ha
        exact absurd ha (List.not_mem_nil a))

/-! ## C8: chapter-scoped figure/table counter monotonicity -/

theorem reSubGo_counter {α : Type} (m : Str → Option (α × Str))
    (rep : Nat → α → Str × Nat) (hrep : ∀ (s : Nat) (a : α), (rep s a).2 = s + 1) :
    ∀ (fuel s : Nat) (t : Str),
      (reSubGo m rep fuel s t).2 = s + reCountGo m fuel t := by
  intro fuel
  induction fuel with
  | zero =>
    intro s t
    cases t with
    | nil => simp [reSubGo, reCountGo]
    | cons c cs => simp [reSubGo, reCountGo]
  | succ fuel ih =>
    intro s t
    cases t with
    | nil => simp [reSubGo, reCountGo]
    | cons c cs =>
      simp only [reSubGo, reCountGo]
      cases hm : m (c :: cs) with
      | none => simp [ih]
      | some p =>
        obtain ⟨a, rest⟩ := p
        by_cases hr : rest.length < cs.length + 1
        · simp only [if_pos hr]
          rw [ih ((rep s a).2) rest, hrep s a]
          omega
        · simp only [if_neg hr]
          exact ih s cs

theorem floatsPass_fig (t : Str) (cs fig tab : Nat) :
    (floatsPass t cs fig tab).2.1 =
      fig + reCount (mEnvOptBody (("figure").data)) t :=
  reSubGo_counter _ _ (fun _ _ => rfl) (t.length + 1) fig t

theorem floatsPass_tab (t : Str) (cs fig tab : Nat) :
    (floatsPass t cs fig tab).2.2 =
      tab + reCount (mEnvOptBody (("table").data))
        ((reSub (mEnvOptBody (("figure").data))
          (fun n b => floatRepl (("Hình").data) cs n b) fig t).1) :=
  reSubGo_counter _ _ (fun _ _ => rfl) _ tab _

theorem latex_to_html_counters (rdr : TikzRenderer) (fs : FileSystem)
    (tex : Str) (env : Option (List (Str × Str × Str))) (pl crt : Str)
    (img : Option (List Str)) (fig tab stt : Nat) :
    (latex_to_html rdr fs tex env pl crt img fig tab stt).2 =
      (floatsPass ((pipelineToFigures rdr tex (env.getD DEFAULT_ENVIRONMENTS) pl stt)).1
        stt fig tab).2 := by
  simp only [latex_to_html]
  cases h : convert_includegraphics fs img
      (preImages (floatsPass
        ((pipelineToFigures rdr tex (env.getD DEFAULT_ENVIRONMENTS) pl stt)).1
        stt fig tab).1) with
  | error e => simp [h]
  | ok t3 => simp [h]

theorem latex_to_html_mono (rdr : TikzRenderer) (fs : FileSystem)
    (tex : Str) (env : Option (List (Str × Str × Str))) (pl crt : Str)
    (img : Option (List Str)) (fig tab stt : Nat) :
    fig ≤ (latex_to_html rdr fs tex env pl crt img fig tab stt).2.1 ∧
    tab ≤ (latex_to_html rdr fs tex env pl crt img fig tab stt).2.2 := by
  have h := latex_to_html_counters rdr fs tex env pl crt img fig tab stt
  constructor
  · rw [congrArg Prod.fst h, floatsPass_fig]
    exact Nat.le_add_right _ _
  · rw [congrArg Prod.snd h, floatsPass_tab]
    exact Nat.le_add_right _ _

theorem processSections_mono (rdr : TikzRenderer) (fs : FileSystem)
    (env : Option (List (Str × Str × Str))) (pl crt : Str)
    (img : Option (List Str)) :
    ∀ (sections : List (Str × Nat)) (fig tab : Nat),
      fig ≤ (processSections rdr fs env pl crt img sections fig tab).2.1 ∧
      tab ≤ (processSections rdr fs env pl crt img sections fig tab).2.2 := by
  intro sections
  induction sections with
  | nil => intro fig tab; exact ⟨Nat.le_refl _, Nat.le_refl _⟩
  | cons p rest ih =>
    intro fig tab
    obtain ⟨content, stt⟩ := p
    have hl := latex_to_html_mono rdr fs content env pl crt img fig tab stt
    have hr := ih (latex_to_html rdr fs content env pl crt img fig tab stt).2.1
      (latex_to_html rdr fs content env pl crt img fig tab stt).2.2
    exact ⟨Nat.le_trans hl.1 hr.1, Nat.le_trans hl.2 hr.2⟩

set_option maxRecDepth 40000 in
set_option maxHeartbeats 16000000 in
/-- C8 (confirmed): each figure/table environment bumps its counter by
exactly one; `floatsPass` returns input counter plus the number of matched
environments; `latex_to_html` returns exactly the `floatsPass` counters,
whether or not the image pass raises, so the caller-supplied counters are
never reset or decreased; `processSections` feeds each section's output
counters into the next section; counters are monotone across any section
sequence; and two one-figure sections processed in sequence number their
figures 1 then 2 (rendered `Hình 8.1` and `Hình 9.2` with card prefixes 8
and 9), ending with counters (2, 0). -/
theorem C8_counter_monotonicity :
    (∀ (marker : Str) (cs n : Nat) (b : Str), (floatRepl marker cs n b).2 = n + 1) ∧
    (∀ (t : Str) (cs fig tab : Nat),
      (floatsPass t cs fig tab).2.1 =
        fig + reCount (mEnvOptBody (("figure").data)) t ∧
      (floatsPass t cs fig tab).2.2 =
        tab + reCount (mEnvOptBody (("table").data))
          ((reSub (mEnvOptBody (("figure").data))
            (fun n b => floatRepl (("Hình").data) cs n b) fig t).1)) ∧
    (∀ (rdr : TikzRenderer) (fs : FileSystem) (tex : Str)
      (env : Option (List (Str × Str × Str))) (pl crt : Str)
      (img : Option (List Str)) (fig tab stt : Nat),
      (latex_to_html rdr fs tex env pl crt img fig tab stt).2 =
        (floatsPass ((pipelineToFigures rdr tex (env.getD DEFAULT_ENVIRONMENTS) pl stt)).1
          stt fig tab).2) ∧
    (∀ (rdr : TikzRenderer) (fs : FileSystem) (tex : Str)
      (env : Option (List (Str × Str × Str))) (pl crt : Str)
      (img : Option (List Str)) (fig tab stt : Nat),
      fig ≤ (latex_to_html rdr fs tex env pl crt img fig tab stt).2.1 ∧
      tab ≤ (latex_to_html rdr fs tex env pl crt img fig tab stt).2.2) ∧
    (∀ (rdr : TikzRenderer) (fs : FileSystem)
      (env : Option (List (Str × Str × Str))) (pl crt : Str)
      (img : Option (List Str)) (content : Str) (stt : Nat)
      (rest : List (Str × Nat)) (fig tab : Nat),
      processSections rdr fs env pl crt img ((content, stt) :: rest) fig tab =
        ((latex_to_html rdr fs content env pl crt img fig tab stt).1 ::
          (processSections rdr fs env pl crt img rest
            (latex_to_html rdr fs content env pl crt img fig tab stt).2.1
            (latex_to_html rdr fs content env pl crt img fig tab stt).2.2).1,
         (processSections rdr fs env pl crt img rest
            (latex_to_html rdr fs content env pl crt img fig tab stt).2.1
            (latex_to_html rdr fs content env pl crt img fig tab stt).2.2).2)) ∧
    (∀ (rdr : TikzRenderer) (fs : FileSystem)
      (env : Option (List (Str × Str × Str))) (pl crt : Str)
      (img : Option (List Str)) (sections : List (Str × Nat)) (fig tab : Nat),
      fig ≤ (processSections rdr fs env pl crt img sections fig tab).2.1 ∧
      tab ≤ (processSections rdr fs env pl crt img sections fig tab).2.2) ∧
    processSections (TikzRenderer.mk false (fun _ _ => [])) emptyFS none
      (("Chứng minh").data) [] none
      [((("\\begin{figure}\\caption{A}\\end{figure}").data), 8),
       ((("\\begin{figure}\\caption{B}\\end{figure}").data), 9)] 0 0 =
      ([Except.ok (("<p><p class=\"table-caption\" style=\"text-align:center\"><em>Hình 8.1: A</em></p></p>").data),
        Except.ok (("<p><p class=\"table-caption\" style=\"text-align:center\"><em>Hình 9.2: B</em></p></p>").data)],
       2, 0) := by
  refine ⟨fun marker cs n b => rfl, ?_, ?_, ?_, ?_, ?_, by decide⟩
  · intro t cs fig tab
    exact ⟨floatsPass_fig t cs fig tab, floatsPass_tab t cs fig tab⟩
  · intro rdr fs tex env pl crt img fig tab stt
    exact latex_to_html_counters rdr fs tex env pl crt img fig tab stt
  · intro rdr fs tex env pl crt img fig tab stt
    exact latex_to_html_mono rdr fs tex env pl crt img fig tab stt
  · intro rdr fs env pl crt img content stt rest fig tab
    rfl
  · intro rdr fs env pl crt img sections fig tab
    exact processSections_mono rdr fs env pl crt img sections fig tab

end Tex2Html
